import Mathlib

/-!
Verification of the incident-analytics core of the AnalizadorIncidencias
repository: a shallow embedding, in Lean 4, of the date/time normalization,
query construction, duration aggregation, Pareto aggregation and
incident/weather correlation logic of `analizador/main/routes.py` and
`analizador/weather_adapter.py`, together with theorems settling the frozen
behavioural claims about that code.

Conventions of the embedding:
* Python strings are Lean `String`s; `None`-able values are `Option`s.
  Python truthiness tests on strings (`if s:` and `a or b`) are modelled
  explicitly on `Option String`.
* `datetime.strptime` with the formats used by the code is modelled at the
  character level with the exact field semantics of CPython `_strptime`
  regexes: `%d` is 1-2 digits valued 1..31, `%m` is 1-2 digits valued 1..12,
  `%Y` is exactly 4 digits, `%H` is 1-2 digits valued 0..23, `%M`/`%S` are
  1-2 digits valued 0..59, with literal separators in between and a full
  match required; the `datetime()` constructor then validates the day
  against the month length.  On a dash (colon) separated format this is
  exactly: split on the separator, require the right number of all-digit
  groups of the right lengths, and check the value ranges.
* Naive datetimes of the routes module are encoded as integer seconds on
  the proleptic Gregorian calendar (`Date.toOrdinal` is Python
  `date.toordinal`).  The timezone `America/Argentina/San_Luis` is a fixed
  UTC-3 zone (no DST in the period the program supports), so
  `TZ.localize(t).astimezone(utc)` adds 3 hours; the weather module works
  in minutes and models the pytz aware/naive distinction with a flag.
* Machine floats appear in the source only as (a) exact small counts and
  sums of whole-second durations in the Pareto endpoint, which we embed
  exactly as integer counts of hundredths ("cents", two decimal places),
  and (b) weather sample values, embedded as `ℚ` and never evaluated by
  any claim.  Python `round(x, 2)` is embedded as floor(100*x + 1/2)
  hundredths; it agrees with float round-half-even everywhere except exact
  `.005` ties, which none of the claimed properties depend on.
-/

namespace Analizador

/-! ## Character and digit utilities -/

/-- Numeric value of a decimal digit character. -/
def digitVal (c : Char) : Nat := c.toNat - 48

/-- Value of a list of decimal digit characters, most significant first. -/
def digitsVal (cs : List Char) : Nat := cs.foldl (fun a c => a * 10 + digitVal c) 0

/-- All characters are decimal digits. -/
def allDigits (cs : List Char) : Bool := cs.all Char.isDigit

/-- Split a character list on a separator character (like `str.split` on a
single-character separator: `n` separators yield `n+1` groups, possibly
empty). -/
def splitOnChar (sep : Char) : List Char → List (List Char)
  | [] => [[]]
  | c :: cs =>
    if c = sep then [] :: splitOnChar sep cs
    else
      match splitOnChar sep cs with
      | [] => [[c]]
      | p :: ps => (c :: p) :: ps

/-- Render `n` as exactly `k` decimal digits, zero padded (the standard
`strftime` zero-padded rendering used for `%d`, `%m`, `%Y`). -/
def padDigits (k n : Nat) : List Char :=
  match k with
  | 0 => []
  | k + 1 => padDigits k (n / 10) ++ [Char.ofNat (48 + n % 10)]

/-! ## Calendar model (Python `datetime.date`) -/

/-- Gregorian leap year rule, as in Python `calendar.isleap`. -/
def isLeap (y : Nat) : Bool := y % 4 = 0 && (y % 100 ≠ 0 || y % 400 = 0)

/-- Length of month `m` of year `y` (Python `calendar.monthrange`). -/
def daysInMonth (y m : Nat) : Nat :=
  if m = 2 then (if isLeap y then 29 else 28)
  else if m = 4 ∨ m = 6 ∨ m = 9 ∨ m = 11 then 30
  else 31

/-- A calendar date as produced by the parsing helpers. -/
structure Date where
  year : Nat
  month : Nat
  day : Nat
deriving DecidableEq

/-- The validity check performed by the Python `datetime` constructor:
year 1..9999, month 1..12, day 1..month length. -/
def validDate (y m d : Nat) : Bool :=
  1 ≤ y && y ≤ 9999 && 1 ≤ m && m ≤ 12 && 1 ≤ d && d ≤ daysInMonth y m

/-- Number of days in all years strictly before year `y` (Gregorian). -/
def daysBeforeYear (y : Nat) : Nat :=
  365 * (y - 1) + (y - 1) / 4 - (y - 1) / 100 + (y - 1) / 400

/-- Number of days in the months of year `y` strictly before month `m`. -/
def daysBeforeMonth (y m : Nat) : Nat :=
  (List.range (m - 1)).foldl (fun a i => a + daysInMonth y (i + 1)) 0

/-- Python `date.toordinal`: day number with 0001-01-01 as day 1. -/
def Date.toOrdinal (dt : Date) : Nat :=
  daysBeforeYear dt.year + daysBeforeMonth dt.year dt.month + dt.day

/-! ## `_parse_date_flexible` (routes.py lines 162-171) -/

/-- One `strptime` numeric field taken from a separator-delimited group:
the group must be all digits, its length must lie in `[minLen, maxLen]`,
and its value in `[lo, hi]`. -/
def fieldNat (cs : List Char) (minLen maxLen lo hi : Nat) : Option Nat :=
  if minLen ≤ cs.length ∧ cs.length ≤ maxLen ∧ allDigits cs
      ∧ lo ≤ digitsVal cs ∧ digitsVal cs ≤ hi then
    some (digitsVal cs)
  else none

/-- Build the date checked by the Python `datetime` constructor. -/
def mkValidDate (y m d : Nat) : Option Date :=
  if validDate y m d then some ⟨y, m, d⟩ else none

/-- `datetime.strptime(s, "%d-%m-%Y")` restricted to the date part. -/
def parseDDMMYYYY (cs : List Char) : Option Date :=
  match splitOnChar '-' cs with
  | [d, m, y] => do
    let dv ← fieldNat d 1 2 1 31
    let mv ← fieldNat m 1 2 1 12
    let yv ← fieldNat y 4 4 0 9999
    mkValidDate yv mv dv
  | _ => none

/-- `datetime.strptime(s, "%Y-%m-%d")` restricted to the date part. -/
def parseYYYYMMDD (cs : List Char) : Option Date :=
  match splitOnChar '-' cs with
  | [y, m, d] => do
    let yv ← fieldNat y 4 4 0 9999
    let mv ← fieldNat m 1 2 1 12
    let dv ← fieldNat d 1 2 1 31
    mkValidDate yv mv dv
  | _ => none

/-- `_parse_date_flexible(s)`: returns `none` on falsy input (`if not s`),
tries `%d-%m-%Y` first, then `%Y-%m-%d`, first success wins, and returns
`none` (never an exception) when both formats fail. -/
def parse_date_flexible (s : Option String) : Option Date :=
  match s with
  | none => none
  | some str =>
    if str = "" then none
    else
      match parseDDMMYYYY str.data with
      | some d => some d
      | none => parseYYYYMMDD str.data

/-! ## Time-of-day parsing (`%H:%M:%S` / `%H:%M`) -/

/-- Seconds after midnight. -/
abbrev TimeOfDay := Nat

/-- `datetime.strptime(h, "%H:%M:%S").time()` as seconds after midnight. -/
def parseHMS (cs : List Char) : Option TimeOfDay :=
  match splitOnChar ':' cs with
  | [h, m, s] => do
    let hv ← fieldNat h 1 2 0 23
    let mv ← fieldNat m 1 2 0 59
    let sv ← fieldNat s 1 2 0 59
    pure (hv * 3600 + mv * 60 + sv)
  | _ => none

/-- `datetime.strptime(h, "%H:%M").time()` as seconds after midnight. -/
def parseHM (cs : List Char) : Option TimeOfDay :=
  match splitOnChar ':' cs with
  | [h, m] => do
    let hv ← fieldNat h 1 2 0 23
    let mv ← fieldNat m 1 2 0 59
    pure (hv * 3600 + mv * 60)
  | _ => none

/-! ## `_parse_datetime_flexible` (routes.py lines 174-191) -/

/-- Naive datetimes as integer seconds: ordinal day number times 86400 plus
seconds after midnight.  Total order agrees with Python datetime order. -/
def dtSeconds (d : Date) (t : TimeOfDay) : Int := (d.toOrdinal * 86400 + t : Nat)

/-- The sentinel `datetime(1900, 1, 1)` returned when the date fails to
parse. -/
def epoch1900 : Int := dtSeconds ⟨1900, 1, 1⟩ 0

/-- Python `str.strip()`: remove leading and trailing whitespace (modelled
on the character list; the code only ever meets ASCII whitespace here). -/
def pyStrip (s : String) : String :=
  ⟨((s.data.dropWhile Char.isWhitespace).reverse.dropWhile Char.isWhitespace).reverse⟩

/-- Python `a or b` on optional strings: the first operand wins unless it
is `None` or empty. -/
def pyOr (a b : Option String) : Option String :=
  match a with
  | some s => if s = "" then b else some s
  | none => b

/-- `_parse_datetime_flexible(date_str, time_str)`: if the date parses in
neither format the sentinel 1900-01-01 00:00:00 is returned (and the time
string is never consulted); otherwise the time string (with the falsy
default `"00:00:00"`, stripped) is tried as `%H:%M:%S` then `%H:%M`, with
midnight as the fallback on failure. -/
def parse_datetime_flexible (dateStr timeStr : Option String) : Int :=
  match parse_date_flexible dateStr with
  | none => epoch1900
  | some d =>
    let h := pyStrip (match pyOr timeStr (some "00:00:00") with
                      | some s => s
                      | none => "00:00:00")
    let t := match parseHMS h.data with
             | some t => t
             | none =>
               match parseHM h.data with
               | some t => t
               | none => 0
    dtSeconds d t

/-! ## `compute_total_duration` (routes.py lines 299-328)

Incident records reaching `compute_total_duration` are the raw store rows;
the function reads the four `*_fmt` fields with a truthy fallback to the
unsuffixed originals.  Only those eight string fields are consulted, so the
record type carries exactly them. -/

structure RawIncident where
  fecha_inicio_fmt : Option String
  fecha_inicio : Option String
  hora_inicio_fmt : Option String
  hora_inicio : Option String
  fecha_fin_fmt : Option String
  fecha_fin : Option String
  hora_fin_fmt : Option String
  hora_fin : Option String
deriving DecidableEq

/-- `inc.get('fecha_inicio_fmt') or inc.get('fecha_inicio')`. -/
def effFechaIni (inc : RawIncident) : Option String := pyOr inc.fecha_inicio_fmt inc.fecha_inicio

/-- `inc.get('hora_inicio_fmt') or inc.get('hora_inicio')`. -/
def effHoraIni (inc : RawIncident) : Option String := pyOr inc.hora_inicio_fmt inc.hora_inicio

/-- `inc.get('fecha_fin_fmt') or inc.get('fecha_fin')`. -/
def effFechaFin (inc : RawIncident) : Option String := pyOr inc.fecha_fin_fmt inc.fecha_fin

/-- `inc.get('hora_fin_fmt') or inc.get('hora_fin')`. -/
def effHoraFin (inc : RawIncident) : Option String := pyOr inc.hora_fin_fmt inc.hora_fin

/-- Parsed start instant of an incident (`sd` in the source). -/
def startDt (inc : RawIncident) : Int :=
  parse_datetime_flexible (effFechaIni inc) (effHoraIni inc)

/-- Parsed end instant of an incident (`ed` in the source). -/
def endDt (inc : RawIncident) : Int :=
  parse_datetime_flexible (effFechaFin inc) (effHoraFin inc)

/-- The accumulation loop of `compute_total_duration`: each incident with
`ed >= sd` adds `ed - sd` to the running total, others add nothing. -/
def totalSeconds (incs : List RawIncident) : Int :=
  incs.foldl
    (fun total inc =>
      if startDt inc ≤ endDt inc then total + (endDt inc - startDt inc) else total)
    0

/-- The parts list of the human readable report: days and hours appear only
when nonzero, minutes always appear. -/
def durationParts (ts : Nat) : List String :=
  let minutes := ts / 60 % 60
  let hours := ts / 3600 % 24
  let days := ts / 86400
  (if days ≠ 0 then [toString days ++ " días"] else [])
    ++ (if hours ≠ 0 then [toString hours ++ " h"] else [])
    ++ [toString minutes ++ " min"]

/-- `compute_total_duration(incidents)`: the readable report string and the
total in whole minutes.  The running total is never negative (only
nonnegative differences are added), so the `toNat` conversion is exact. -/
def compute_total_duration (incs : List RawIncident) : String × Nat :=
  let ts := (totalSeconds incs).toNat
  (String.intercalate " " (durationParts ts), ts / 60)

/-- Concrete record for the C10 witness: unparseable start date, end
instant 1900-01-02 01:30:00. -/
def egC10 : RawIncident :=
  ⟨some "banana", none, none, none, some "02-01-1900", none, some "01:30", none⟩

/-! ## Query construction (`get_filtered_incidents`, routes.py lines 243-297) -/

/-- Conversion of a local wall-clock minute count to the UTC minute count:
the fixed UTC-3 zone puts the UTC instant 180 minutes later
(`TZ.localize(...).astimezone(pytz.utc)`). -/
def utcOfLocalMinutes (localMin : Int) : Int := localMin + 180

/-- Local midnight of a calendar day, in local wall-clock minutes
(`datetime.combine(d, time(0, 0, 0))`). -/
def localMidnight (d : Date) : Int := (d.toOrdinal : Int) * 1440

/-- The `range(...)` stage of the Flux query: explicit `[start, stop)`
bounds in UTC (`stop` exclusive, per Flux `range` semantics) when a start
date is given, otherwise the default five-year lookback.  Note that the
end date alone never reaches the range. -/
inductive QueryRange where
  | explicitRange (startUtc stopUtc : Int)
  | last5y
deriving DecidableEq

/-- Range construction of `get_filtered_incidents` (lines 250-264): with a
start date, the window runs from local midnight of the start date to local
midnight of the day after `effective_end = end_date or start_date`, both
converted to UTC. -/
def build_range (start_date end_date : Option Date) : QueryRange :=
  match start_date with
  | none => .last5y
  | some sd =>
    let effectiveEnd := match end_date with
                        | some e => e
                        | none => sd
    .explicitRange (utcOfLocalMinutes (localMidnight sd))
      (utcOfLocalMinutes (localMidnight effectiveEnd + 1440))

/-- Local calendar day (ordinal number) containing a UTC instant, for
stating what the window covers. -/
def localDayOfUtc (t : Int) : Int := (t - 180) / 1440

/-- Python `str.replace` for a single-character pattern. -/
def replaceChar : List Char → Char → List Char → List Char
  | [], _, _ => []
  | x :: xs, c, r => (if x = c then r else [x]) ++ replaceChar xs c r

/-- `causa.replace('\\', '\\\\').replace('"', '\\"')` at character-list
level: backslashes doubled first, then double quotes backslashed. -/
def escFluxList (cs : List Char) : List Char :=
  replaceChar (replaceChar cs '\\' ['\\', '\\']) '"' ['\\', '"']

/-- The escaping applied to the cause filter value (line 276). -/
def escape_flux (s : String) : String := ⟨escFluxList s.data⟩

/-- One Flux tag-equality filter stage, as interpolated by the f-strings of
lines 274, 277 and 281. -/
def fluxFilterClause (tag value : String) : String :=
  "|> filter(fn: (r) => r." ++ tag ++ " == \"" ++ value ++ "\")"

/-- Python truthiness of an optional string. -/
def truthy : Option String → Bool
  | none => false
  | some s => !(s == "")

/-- Python `o or ""` for reading the wrapped value of a truthy option. -/
def pyGetD (o : Option String) : String :=
  match o with
  | some s => s
  | none => ""

/-- The optional filter stages appended by `get_filtered_incidents` (lines
272-281): the district value verbatim when truthy, the cause value escaped
when truthy, and the voltage level only when it is exactly `"BT"` or
`"MT"`. -/
def filter_clauses (distrito causa nivel_tension : Option String) : List String :=
  (match distrito with
   | some d => if d = "" then [] else [fluxFilterClause "distrito" d]
   | none => [])
  ++ (match causa with
      | some c =>
        if c = "" then [] else [fluxFilterClause "descripcion_de_la_causa" (escape_flux c)]
      | none => [])
  ++ (if nivel_tension = some "BT" ∨ nivel_tension = some "MT" then
        [fluxFilterClause "nivel_tension" (pyGetD nivel_tension)]
      else [])

/-- The variable parts of the query assembled by `get_filtered_incidents`
(the fixed measurement filter, pivot and sort stages are always present and
carry no user data). -/
structure QuerySpec where
  range : QueryRange
  filters : List String
deriving DecidableEq

def get_filtered_incidents_query (start_date end_date : Option Date)
    (distrito causa nivel_tension : Option String) : QuerySpec :=
  ⟨build_range start_date end_date, filter_clauses distrito causa nivel_tension⟩

/-- Body of a double-quoted Flux string literal, read after the opening
quote: the literal must span the whole input, `\\` and `\"` are the escape
sequences the escaper can emit (no other escape arises from it), a bare
`"` closes the literal.  Returns the denoted character list; `none` means
the input is not one single well-formed literal. -/
def fluxLitBody : List Char → Option (List Char)
  | [] => none
  | c :: rest =>
    if c = '"' then (if rest = [] then some [] else none)
    else if c = '\\' then
      match rest with
      | [] => none
      | c2 :: rest2 =>
        if c2 = '"' ∨ c2 = '\\' then (fluxLitBody rest2).map (c2 :: ·) else none
    else (fluxLitBody rest).map (c :: ·)

/-- A complete double-quoted Flux string literal. -/
def parseFluxLit (cs : List Char) : Option (List Char) :=
  match cs with
  | '"' :: rest => fluxLitBody rest
  | _ => none

/-! ## The index POST and download entry points (routes.py 349-470, 502-550) -/

/-- Outcome of the date handling of the index POST handler: a flashed
rejection with no results, a store query, or no query at all. -/
inductive IndexOutcome where
  | rejected (msg : String)
  | results (q : QuerySpec)
  | emptyResults
deriving DecidableEq

/-- The date-validation and fetch logic of the index POST handler (lines
399-447, `traer_tabla` path): end date without start date is rejected, end
date before start date is rejected, otherwise the query runs with
`effective_end = end_date or start_date`, or with no range when only
tag filters are set.  Python compares `date` objects, which orders exactly
as `toOrdinal`. -/
def index_post (start_date end_date : Option Date)
    (distrito causa nivel_tension : Option String) : IndexOutcome :=
  match start_date, end_date with
  | none, some _ => .rejected "Seleccione primero la fecha Desde."
  | some s, some e =>
    if e.toOrdinal < s.toOrdinal then
      .rejected "La fecha Hasta no puede ser anterior a Desde."
    else .results (get_filtered_incidents_query (some s) (some e) distrito causa nivel_tension)
  | some s, none =>
    .results (get_filtered_incidents_query (some s) (some s) distrito causa nivel_tension)
  | none, none =>
    if truthy distrito || truthy causa || truthy nivel_tension then
      .results (get_filtered_incidents_query none none distrito causa nivel_tension)
    else .emptyResults

/-- The `download_xls` handler (lines 502-517) performs no date
validation: it always hands the parsed dates straight to
`get_filtered_incidents`. -/
def download_xls_query (start_date end_date : Option Date)
    (distrito causa nivel_tension : Option String) : QuerySpec :=
  get_filtered_incidents_query start_date end_date distrito causa nivel_tension

/-! ## Pareto by cause (`api_pareto_causas`, routes.py lines 659-697)

The endpoint reads, from each normalized row, the cause string and
`dur_min = (end - start).total_seconds() / 60` (a whole number of seconds
over 60).  All arithmetic is exact when carried in integer units:
aggregated values in sixtieths of a minute (one incident counts as 60
sixtieths under the `incidencias` metric, `durSecs` sixtieths under
`minutos`), displayed values and percentages in hundredths ("cents", two
decimal places, i.e. `100.00` percent is `10000`).  `round(x, 2)` is
`floor(100 x + 1/2)` cents. -/

structure PRow where
  causa : String
  durSecs : Nat
deriving DecidableEq

/-- `agg[key] += x` on an insertion-ordered association list (a Python
`defaultdict` preserves first-insertion order). -/
def bumpAgg : List (String × Nat) → String → Nat → List (String × Nat)
  | [], k, v => [(k, v)]
  | (k1, v1) :: rest, k, v =>
    if k1 = k then (k1, v1 + v) :: rest else (k1, v1) :: bumpAgg rest k v

/-- The aggregation loop of the endpoint, in sixtieths. -/
def paretoAgg (metric : String) (rows : List PRow) : List (String × Nat) :=
  rows.foldl
    (fun agg r => bumpAgg agg r.causa (if metric = "minutos" then r.durSecs else 60)) []

/-- Stable descending insertion by value: an element moves left past
strictly smaller values only, so equal values keep first-insertion order —
the guarantee of Python `sorted(..., key=value, reverse=True)`. -/
def insertDesc (x : String × Nat) : List (String × Nat) → List (String × Nat)
  | [] => [x]
  | y :: ys => if y.2 < x.2 then x :: y :: ys else y :: insertDesc x ys

/-- Stable descending sort by value. -/
def sortDesc (l : List (String × Nat)) : List (String × Nat) :=
  l.foldl (fun acc x => insertDesc x acc) []

/-- `round(v, 2)` in cents for a value of `v` sixtieths of a minute:
`floor(100 * (v / 60) + 1/2) = (10 v + 3) / 6` hundredths. -/
def centsOfSixtieths (v : Nat) : Nat := (10 * v + 3) / 6

/-- Cumulative percentages in cents: `round(100.0 * run / total, 2)` at
each prefix, i.e. `floor(10000 run / total + 1/2)
= (20000 run + total) / (2 total)` cents, `run` and `total` in cents. -/
def acumCents (total : Nat) : Nat → List Nat → List Nat
  | _, [] => []
  | run, v :: vs => (20000 * (run + v) + total) / (2 * total) :: acumCents total (run + v) vs

structure ParetoResult where
  categories : List String
  values : List Nat
  acumulada : List Nat
deriving DecidableEq

/-- The post-collapse category list (`top` in the source): sort
descending, keep the top 12 entries, and append a single `Otros` bucket
holding the sum of the remainder when there is one. -/
def paretoTop2 (metric : String) (rows : List PRow) : List (String × Nat) :=
  let items := sortDesc (paretoAgg metric rows)
  if items.drop 12 = [] then items.take 12
  else items.take 12 ++ [("Otros", ((items.drop 12).map (fun kv => kv.2)).sum)]

/-- `values = [round(v, 2) for _, v in top]`, in cents. -/
def paretoValues (metric : String) (rows : List PRow) : List Nat :=
  (paretoTop2 metric rows).map (fun kv => centsOfSixtieths kv.2)

/-- `total = sum(values) or 1.0` (1.0 is 100 cents). -/
def paretoTotal (metric : String) (rows : List PRow) : Nat :=
  if (paretoValues metric rows).sum = 0 then 100 else (paretoValues metric rows).sum

/-- `api_pareto_causas`: aggregate by cause, sort descending, keep the top
12, collapse the remainder into a final `Otros` bucket, round the values
to cents, and compute the cumulative percentage over the rounded values
with `total = sum(values) or 1.0` (one percent unit is 100 cents). -/
def api_pareto_causas (metric : String) (rows : List PRow) : ParetoResult :=
  ⟨(paretoTop2 metric rows).map (fun kv => kv.1), paretoValues metric rows,
    acumCents (paretoTotal metric rows) 0 (paretoValues metric rows)⟩

/-- The 14-cause scenario: counts [50,40,30,20,15,10,8,6,5,4,3,2,1,1]. -/
def paretoScenarioRows : List PRow :=
  List.replicate 50 ⟨"C01", 0⟩ ++ List.replicate 40 ⟨"C02", 0⟩
    ++ List.replicate 30 ⟨"C03", 0⟩ ++ List.replicate 20 ⟨"C04", 0⟩
    ++ List.replicate 15 ⟨"C05", 0⟩ ++ List.replicate 10 ⟨"C06", 0⟩
    ++ List.replicate 8 ⟨"C07", 0⟩ ++ List.replicate 6 ⟨"C08", 0⟩
    ++ List.replicate 5 ⟨"C09", 0⟩ ++ List.replicate 4 ⟨"C10", 0⟩
    ++ List.replicate 3 ⟨"C11", 0⟩ ++ List.replicate 2 ⟨"C12", 0⟩
    ++ List.replicate 1 ⟨"C13", 0⟩ ++ List.replicate 1 ⟨"C14", 0⟩

/-! ## Weather correlation (`weather_adapter.py`)

The weather store client is abstracted as a fetch function and every
issued fetch is logged, so claims about how many store queries run are
statements about the log.  pytz datetimes are modelled with a flag:
`mins` is the wall-clock minute count in the fixed UTC-3 zone (an aware
value converts to UTC by adding 180 minutes) and `aware` records whether
`tzinfo` is set.  `TZ.localize` raises `ValueError` on an aware value,
and Python `min`/`max` raise `TypeError` when comparing a naive with an
aware datetime; exceptions are modelled with `Except`, a raise aborts the
per-district loop, discards all rows, and the fetch log of the aborted run
is returned alongside. -/

structure LDT where
  mins : Int
  aware : Bool
deriving DecidableEq

/-- An incident entering `cross_incidents_with_weather`: the three
required keys (possibly absent), plus the remaining dict entries (copied
verbatim into the result row by `{**inc}`), opaque here. -/
structure WIncident where
  distrito : Option String
  dt_inicio_local : Option LDT
  dt_fin_local : Option LDT
  payload : Nat
deriving DecidableEq

/-- The per-key check of `_require_keys_for_cross`: a key is lacking when
absent, `None`, or its string form strips to empty.  A datetime never
prints as whitespace, so only `None` counts for the datetime keys; a
district string is also lacking when it strips to empty. -/
def missingKeys (inc : WIncident) : List String :=
  (if inc.distrito = none ∨ pyStrip (pyGetD inc.distrito) = "" then ["distrito"] else [])
    ++ (if inc.dt_inicio_local = none then ["dt_inicio_local"] else [])
    ++ (if inc.dt_fin_local = none then ["dt_fin_local"] else [])

/-- Projection of the three required keys, used as the example payload of
a validation error (`{k: inc.get(k) for k in _REQUIRED_KEYS}`). -/
def requiredProj (inc : WIncident) : Option String × Option LDT × Option LDT :=
  (inc.distrito, inc.dt_inicio_local, inc.dt_fin_local)

/-- One recorded offending incident of the validation error. -/
structure MissingEntry where
  idx : Nat
  missing : List String
  eg : Option String × Option LDT × Option LDT
deriving DecidableEq

/-- The collection loop of `_require_keys_for_cross`: record each
offending record (index, lacking keys, example projection) and stop as
soon as three are collected. -/
def collectMissing : Nat → Nat → List WIncident → List MissingEntry
  | _, _, [] => []
  | i, room, inc :: rest =>
    if missingKeys inc = [] then collectMissing (i + 1) room rest
    else if room ≤ 1 then [⟨i, missingKeys inc, requiredProj inc⟩]
    else ⟨i, missingKeys inc, requiredProj inc⟩ :: collectMissing (i + 1) (room - 1) rest

/-- `_require_keys_for_cross`: the recorded entries (the function raises
`ValueError` carrying them whenever the list is non-empty). -/
def require_keys_for_cross (incidents : List WIncident) : List MissingEntry :=
  collectMissing 0 3 incidents

/-- One weather sample row (`_time`, `_field`, `_value`) of the fetched
frame; times in UTC minutes. -/
structure WPoint where
  time : Int
  field : String
  value : ℚ
deriving DecidableEq

abbrev WeatherDF := List WPoint

/-- The external weather store: tag value and UTC window in, frame out. -/
abbrev WeatherQueryFn := String → Int → Int → WeatherDF

/-- Configured field names (`analizador/__init__.py` defaults). -/
def WEATHER_WIND_FIELD : String := "windspeed"

def WEATHER_HUM_FIELD : String := "relative_humidity"

def WEATHER_TEMP_FIELD : String := "temperature"

/-- `_to_utc` of `compute_metrics_for_incident`: localize a naive value or
convert an aware one; in the fixed UTC-3 zone both add 180 minutes and
neither raises. -/
def toUtcMins (dt : LDT) : Int := dt.mins + 180

structure Metrics where
  viento_max : Option ℚ
  viento_prom : Option ℚ
  humedad_prom : Option ℚ
  temp_prom : Option ℚ
  humedad_prev_6h : Option ℚ
deriving DecidableEq

/-- Maximum of a non-empty list, accumulator style (`Series.max`). -/
def qMax : ℚ → List ℚ → ℚ
  | a, [] => a
  | a, x :: xs => qMax (max a x) xs

/-- Mean of a list of samples (`Series.mean`; callers guard emptiness). -/
def qMean (s : List ℚ) : ℚ := s.sum / (s.length : ℚ)

/-- `_max_mean(field)`: max and mean of the field values under the mask,
`(None, None)` when the field is unconfigured or no sample matches. -/
def maxMeanOf (dfw : WeatherDF) (pred : WPoint → Bool) (field : String) :
    Option ℚ × Option ℚ :=
  if field = "" then (none, none)
  else
    match (dfw.filter (fun p => pred p && p.field == field)).map (fun p => p.value) with
    | [] => (none, none)
    | x :: xs => (some (qMax x xs), some (qMean (x :: xs)))

/-- `_mean(field, mask)`. -/
def meanOf (dfw : WeatherDF) (pred : WPoint → Bool) (field : String) : Option ℚ :=
  if field = "" then none
  else
    match (dfw.filter (fun p => pred p && p.field == field)).map (fun p => p.value) with
    | [] => none
    | x :: xs => some (qMean (x :: xs))

/-- `compute_metrics_for_incident`: all-`None` on an empty frame,
otherwise wind max/mean, temperature and humidity means over the incident
window `[start, end]`, and the humidity mean over `[start - 6h, start)`. -/
def compute_metrics_for_incident (dfw : WeatherDF) (t0 t1 : LDT) : Metrics :=
  if dfw = [] then ⟨none, none, none, none, none⟩
  else
    let t0u := toUtcMins t0
    let t1u := toUtcMins t1
    let winP := fun p : WPoint => decide (t0u ≤ p.time) && decide (p.time ≤ t1u)
    let prevP := fun p : WPoint => decide (p.time < t0u) && decide (t0u - 360 ≤ p.time)
    let wind := maxMeanOf dfw winP WEATHER_WIND_FIELD
    ⟨wind.1, wind.2, meanOf dfw winP WEATHER_HUM_FIELD,
      meanOf dfw winP WEATHER_TEMP_FIELD, meanOf dfw prevP WEATHER_HUM_FIELD⟩

/-- Python `min` on two datetimes: `TypeError` when one is naive and the
other aware, else the smaller (first on ties). -/
def pyCmpMin (a b : LDT) : Except String LDT :=
  if a.aware = b.aware then .ok (if b.mins < a.mins then b else a)
  else .error "cant compare offset-naive and offset-aware datetimes"

/-- Python `max` on two datetimes (last on ties, as `max` keeps the later
maximal argument only when strictly larger — ties keep the first; either
choice has the same `mins` and flag). -/
def pyCmpMax (a b : LDT) : Except String LDT :=
  if a.aware = b.aware then .ok (if a.mins < b.mins then b else a)
  else .error "cant compare offset-naive and offset-aware datetimes"

def pyMinList : LDT → List LDT → Except String LDT
  | a, [] => .ok a
  | a, x :: xs =>
    match pyCmpMin a x with
    | .error msg => .error msg
    | .ok m => pyMinList m xs

def pyMaxList : LDT → List LDT → Except String LDT
  | a, [] => .ok a
  | a, x :: xs =>
    match pyCmpMax a x with
    | .error msg => .error msg
    | .ok m => pyMaxList m xs

/-- `TZ.localize(dt).astimezone(pytz.utc)`: raises `ValueError` when `dt`
already carries a tzinfo, else interprets the wall clock in the fixed
UTC-3 zone. -/
def pyLocalizeToUtc (dt : LDT) : Except String Int :=
  if dt.aware then .error "Not naive datetime (tzinfo is already set)"
  else .ok (dt.mins + 180)

/-- Required-key access after validation (never the default once
validation passed). -/
def getDT (o : Option LDT) : LDT := o.getD ⟨0, false⟩

/-- The per-district covering window (lines 195-198):
`[min(dt_inicio) - 6h, max(dt_fin)]`, localized to UTC. -/
def windowOf (items : List WIncident) : Except String (Int × Int) :=
  match items with
  | [] => .error "min() arg is an empty sequence"
  | i :: rest =>
    match pyMinList (getDT i.dt_inicio_local) (rest.map (fun j => getDT j.dt_inicio_local)) with
    | .error msg => .error msg
    | .ok t0 =>
      match pyMaxList (getDT i.dt_fin_local) (rest.map (fun j => getDT j.dt_fin_local)) with
      | .error msg => .error msg
      | .ok t1 =>
        match pyLocalizeToUtc ⟨t0.mins - 360, t0.aware⟩ with
        | .error msg => .error msg
        | .ok s =>
          match pyLocalizeToUtc t1 with
          | .error msg => .error msg
          | .ok e => .ok (s, e)

/-- `by_d[inc.get("distrito") or ""].append(inc)` on an insertion-ordered
association list (Python dict iteration order). -/
def addToGroup : List (String × List WIncident) → String → WIncident →
    List (String × List WIncident)
  | [], k, inc => [(k, [inc])]
  | (k1, l) :: rest, k, inc =>
    if k1 = k then (k1, l ++ [inc]) :: rest else (k1, l) :: addToGroup rest k inc

def groupByDistrito (incs : List WIncident) : List (String × List WIncident) :=
  incs.foldl (fun g inc => addToGroup g (pyGetD inc.distrito) inc) []

/-- `distrito_tags.get(str(d).strip())` on the loaded mapping. -/
def lookupTag (tags : List (String × String)) (d : String) : Option String :=
  (tags.find? (fun kv => kv.1 == pyStrip d)).map (fun kv => kv.2)

/-- The value the `if not tag:` test keys on: a missing entry and an empty
tag are both falsy. -/
def effectiveTag (tags : List (String × String)) (d : String) : Option String :=
  match lookupTag tags d with
  | none => none
  | some t => if t = "" then none else some t

/-- A result row: the incident dict plus the five metrics and the
`_clima` status. -/
structure WRow where
  inc : WIncident
  mets : Metrics
  clima : String
deriving DecidableEq

/-- Row of an incident in a district with no usable tag: all five metrics
`None`, status `sin_tag`. -/
def mkSinTagRow (inc : WIncident) : WRow :=
  ⟨inc, ⟨none, none, none, none, none⟩, "sin_tag"⟩

/-- Row of an incident in a fetched district: computed metrics, status
`ok` when the frame has samples and `sin_datos` otherwise. -/
def mkWeatherRow (dfw : WeatherDF) (inc : WIncident) : WRow :=
  ⟨inc, compute_metrics_for_incident dfw (getDT inc.dt_inicio_local) (getDT inc.dt_fin_local),
    if dfw = [] then "sin_datos" else "ok"⟩

inductive CrossErr where
  | validation (ms : List MissingEntry)
  | typeOrValue (msg : String)
deriving DecidableEq

/-- A logged fetch: tag value, start and stop of the requested window. -/
abbrev Fetch := String × Int × Int

/-- The per-district loop of `cross_incidents_with_weather` (lines
190-224).  The covering window is computed before the tag test, exactly as
in the source (the tag lookup itself is pure, so looking it up at the
branch costs nothing); a raise propagates and discards every row. -/
def processGroups (qf : WeatherQueryFn) (tags : List (String × String)) :
    List (String × List WIncident) → Except CrossErr (List WRow) × List Fetch
  | [] => (.ok [], [])
  | (d, items) :: rest =>
    match windowOf items with
    | .error msg => (.error (.typeOrValue msg), [])
    | .ok w =>
      match effectiveTag tags d with
      | none =>
        let rows := items.map mkSinTagRow
        let r2 := processGroups qf tags rest
        (r2.1.map (fun rs => rows ++ rs), r2.2)
      | some tag =>
        let dfw := qf tag w.1 w.2
        let rows := items.map (mkWeatherRow dfw)
        let r2 := processGroups qf tags rest
        (r2.1.map (fun rs => rows ++ rs), (tag, w.1, w.2) :: r2.2)

/-- `cross_incidents_with_weather(query_api, incidents, distrito_tags)`:
validate, group by district, and run the per-district loop.  The second
component is the log of weather fetches issued before returning or
raising. -/
def cross_incidents_with_weather (qf : WeatherQueryFn) (incidents : List WIncident)
    (distrito_tags : List (String × String)) : Except CrossErr (List WRow) × List Fetch :=
  if require_keys_for_cross incidents = [] then
    processGroups qf distrito_tags (groupByDistrito incidents)
  else (.error (.validation (require_keys_for_cross incidents)), [])

deriving instance DecidableEq for Except

/-- The trivial weather store (no samples), for concrete instances. -/
def qfEmpty : WeatherQueryFn := fun _ _ _ => []

/-- Concrete aware-datetime incident for the C3 counterexample: its
district has no tag mapping, yet no `sin_tag` row is produced because the
window computation raises first. -/
def egC3inc : WIncident := ⟨some "X", some ⟨0, true⟩, some ⟨10, true⟩, 0⟩

/-- Concrete naive-datetime list for the C3 witness: district `X` mapped
to tag `TX`, district `Y` unmapped. -/
def egC3good : List WIncident :=
  [⟨some "X", some ⟨600, false⟩, some ⟨700, false⟩, 0⟩,
    ⟨some "Y", some ⟨0, false⟩, some ⟨60, false⟩, 1⟩]

/-! ## Zero-padded renderings of a calendar date -/

/-- The `DD-MM-YYYY` rendering of a calendar date (zero padded, as
`strftime("%d-%m-%Y")` renders it). -/
def renderDDMMYYYY (d m y : Nat) : String :=
  ⟨padDigits 2 d ++ '-' :: (padDigits 2 m ++ '-' :: padDigits 4 y)⟩

/-- The `YYYY-MM-DD` rendering of a calendar date (zero padded, as
`strftime("%Y-%m-%d")` renders it). -/
def renderYYYYMMDD (y m d : Nat) : String :=
  ⟨padDigits 4 y ++ '-' :: (padDigits 2 m ++ '-' :: padDigits 2 d)⟩

/-! ## Roundtrip lemmas for the date parser -/

theorem digitsVal_append_single (cs : List Char) (c : Char) :
    digitsVal (cs ++ [c]) = digitsVal cs * 10 + digitVal c := by
  simp [digitsVal, List.foldl_append]

theorem padDigits_mem {k n : Nat} {c : Char} (h : c ∈ padDigits k n) :
    ∃ d, d < 10 ∧ c = Char.ofNat (48 + d) := by
  induction k generalizing n with
  | zero => simp [padDigits] at h
  | succ k ih =>
    simp only [padDigits, List.mem_append, List.mem_singleton] at h
    rcases h with h | h
    · exact ih h
    · exact ⟨n % 10, Nat.mod_lt _ (by norm_num), h⟩

theorem digit_char_facts : ∀ d, d < 10 →
    (Char.ofNat (48 + d)).isDigit = true
    ∧ Char.ofNat (48 + d) ≠ '-' ∧ Char.ofNat (48 + d) ≠ ':'
    ∧ digitVal (Char.ofNat (48 + d)) = d := by decide

theorem padDigits_length (k n : Nat) : (padDigits k n).length = k := by
  induction k generalizing n with
  | zero => rfl
  | succ k ih => simp [padDigits, ih]

theorem padDigits_allDigits (k n : Nat) : allDigits (padDigits k n) = true := by
  rw [allDigits, List.all_eq_true]
  intro c hc
  obtain ⟨d, hd, rfl⟩ := padDigits_mem hc
  exact (digit_char_facts d hd).1

theorem padDigits_not_mem (k n : Nat) {sep : Char} (hsep : sep = '-' ∨ sep = ':') :
    sep ∉ padDigits k n := by
  intro h
  obtain ⟨d, hd, he⟩ := padDigits_mem h
  rcases hsep with rfl | rfl
  · exact (digit_char_facts d hd).2.1 he.symm
  · exact (digit_char_facts d hd).2.2.1 he.symm

theorem digitsVal_padDigits (k n : Nat) (h : n < 10 ^ k) :
    digitsVal (padDigits k n) = n := by
  induction k generalizing n with
  | zero =>
    interval_cases n
    rfl
  | succ k ih =>
    have hdiv : n / 10 < 10 ^ k := by
      rw [Nat.div_lt_iff_lt_mul (by norm_num)]
      calc n < 10 ^ (k + 1) := h
        _ = 10 ^ k * 10 := by ring
    rw [padDigits, digitsVal_append_single, ih (n / 10) hdiv,
      (digit_char_facts (n % 10) (Nat.mod_lt _ (by norm_num))).2.2.2]
    omega

theorem splitOnChar_ne_nil (sep : Char) (cs : List Char) : splitOnChar sep cs ≠ [] := by
  induction cs with
  | nil => simp [splitOnChar]
  | cons c cs ih =>
    rw [splitOnChar]
    split
    · simp
    · match h : splitOnChar sep cs with
      | [] => exact absurd h ih
      | p :: ps => simp [h]

theorem splitOnChar_no_sep {sep : Char} {cs : List Char} (h : sep ∉ cs) :
    splitOnChar sep cs = [cs] := by
  induction cs with
  | nil => rfl
  | cons c cs ih =>
    rw [splitOnChar, if_neg (by intro hc; exact h (hc ▸ List.mem_cons_self c cs)),
      ih (fun hx => h (List.mem_cons_of_mem c hx))]

theorem splitOnChar_append {sep : Char} {xs : List Char} (rest : List Char)
    (h : sep ∉ xs) : splitOnChar sep (xs ++ sep :: rest) = xs :: splitOnChar sep rest := by
  induction xs with
  | nil => simp [splitOnChar]
  | cons x xs ih =>
    rw [List.cons_append, splitOnChar,
      if_neg (by intro hc; exact h (hc ▸ List.mem_cons_self x xs)),
      ih (fun hx => h (List.mem_cons_of_mem x hx))]

theorem daysInMonth_le (y m : Nat) : daysInMonth y m ≤ 31 := by
  rw [daysInMonth]
  split
  · split <;> omega
  · split <;> omega

/-- Unpacked form of the `validDate` check. -/
theorem validDate_iff {y m d : Nat} : validDate y m d = true ↔
    1 ≤ y ∧ y ≤ 9999 ∧ 1 ≤ m ∧ m ≤ 12 ∧ 1 ≤ d ∧ d ≤ daysInMonth y m := by
  simp [validDate, Bool.and_eq_true, decide_eq_true_eq, and_assoc]

theorem fieldNat_padDigits_2 (n lo hi : Nat) (hn : n < 100) (hlo : lo ≤ n) (hhi : n ≤ hi) :
    fieldNat (padDigits 2 n) 1 2 lo hi = some n := by
  have hv := digitsVal_padDigits 2 n (by omega)
  rw [fieldNat, if_pos, hv]
  refine ⟨?_, ?_, ?_, ?_, ?_⟩
  · rw [padDigits_length]; omega
  · rw [padDigits_length]
  · exact padDigits_allDigits 2 n
  · rw [hv]; exact hlo
  · rw [hv]; exact hhi

theorem fieldNat_padDigits_4 (n : Nat) (hn : n < 10000) :
    fieldNat (padDigits 4 n) 4 4 0 9999 = some n := by
  have hv := digitsVal_padDigits 4 n (by omega)
  rw [fieldNat, if_pos, hv]
  refine ⟨?_, ?_, ?_, ?_, ?_⟩
  · rw [padDigits_length]
  · rw [padDigits_length]
  · exact padDigits_allDigits 4 n
  · rw [hv]; omega
  · rw [hv]; omega

/-- A four-digit group is rejected by a 1-2 digit field. -/
theorem fieldNat_4_not_2 (n lo hi : Nat) : fieldNat (padDigits 4 n) 1 2 lo hi = none := by
  rw [fieldNat, if_neg]
  intro ⟨_, h2, _⟩
  rw [padDigits_length] at h2
  omega

theorem parseDDMMYYYY_render {y m d : Nat} (hv : validDate y m d = true) :
    parseDDMMYYYY (renderDDMMYYYY d m y).data = some ⟨y, m, d⟩ := by
  obtain ⟨h1, h2, h3, h4, h5, h6⟩ := validDate_iff.mp hv
  have hle := daysInMonth_le y m
  have hsplit : splitOnChar '-' (renderDDMMYYYY d m y).data
      = [padDigits 2 d, padDigits 2 m, padDigits 4 y] := by
    show splitOnChar '-' (padDigits 2 d ++ '-' :: (padDigits 2 m ++ '-' :: padDigits 4 y))
      = _
    rw [splitOnChar_append _ (padDigits_not_mem 2 d (Or.inl rfl)),
      splitOnChar_append _ (padDigits_not_mem 2 m (Or.inl rfl)),
      splitOnChar_no_sep (padDigits_not_mem 4 y (Or.inl rfl))]
  rw [parseDDMMYYYY, hsplit]
  simp [fieldNat_padDigits_2 d 1 31 (by omega) h5 (by omega),
    fieldNat_padDigits_2 m 1 12 (by omega) h3 h4,
    fieldNat_padDigits_4 y (by omega), mkValidDate, hv]

theorem parseYYYYMMDD_render {y m d : Nat} (hv : validDate y m d = true) :
    parseYYYYMMDD (renderYYYYMMDD y m d).data = some ⟨y, m, d⟩ := by
  obtain ⟨h1, h2, h3, h4, h5, h6⟩ := validDate_iff.mp hv
  have hle := daysInMonth_le y m
  have hsplit : splitOnChar '-' (renderYYYYMMDD y m d).data
      = [padDigits 4 y, padDigits 2 m, padDigits 2 d] := by
    show splitOnChar '-' (padDigits 4 y ++ '-' :: (padDigits 2 m ++ '-' :: padDigits 2 d))
      = _
    rw [splitOnChar_append _ (padDigits_not_mem 4 y (Or.inl rfl)),
      splitOnChar_append _ (padDigits_not_mem 2 m (Or.inl rfl)),
      splitOnChar_no_sep (padDigits_not_mem 2 d (Or.inl rfl))]
  rw [parseYYYYMMDD, hsplit]
  simp [fieldNat_padDigits_2 d 1 31 (by omega) h5 (by omega),
    fieldNat_padDigits_2 m 1 12 (by omega) h3 h4,
    fieldNat_padDigits_4 y (by omega), mkValidDate, hv]

/-- The first format rejects a `YYYY-MM-DD` rendering (its first group has
four digits, while `%d` accepts at most two). -/
theorem parseDDMMYYYY_renderYYYYMMDD (y m d : Nat) :
    parseDDMMYYYY (renderYYYYMMDD y m d).data = none := by
  have hsplit : splitOnChar '-' (renderYYYYMMDD y m d).data
      = [padDigits 4 y, padDigits 2 m, padDigits 2 d] := by
    show splitOnChar '-' (padDigits 4 y ++ '-' :: (padDigits 2 m ++ '-' :: padDigits 2 d))
      = _
    rw [splitOnChar_append _ (padDigits_not_mem 4 y (Or.inl rfl)),
      splitOnChar_append _ (padDigits_not_mem 2 m (Or.inl rfl)),
      splitOnChar_no_sep (padDigits_not_mem 2 d (Or.inl rfl))]
  rw [parseDDMMYYYY, hsplit]
  simp [fieldNat_4_not_2]

theorem renderDDMMYYYY_ne_empty (d m y : Nat) : renderDDMMYYYY d m y ≠ "" := by
  intro h
  have hl : (renderDDMMYYYY d m y).data.length = 0 := by rw [h]; rfl
  rw [renderDDMMYYYY] at hl
  simp [padDigits_length] at hl

theorem renderYYYYMMDD_ne_empty (y m d : Nat) : renderYYYYMMDD y m d ≠ "" := by
  intro h
  have hl : (renderYYYYMMDD y m d).data.length = 0 := by rw [h]; rfl
  rw [renderYYYYMMDD] at hl
  simp [padDigits_length] at hl

/-- C9.  `parse_date_flexible` tries `DD-MM-YYYY` first and `YYYY-MM-DD`
second, the first successful parse wins, it returns `none` rather than
failing on unparseable input (it is a total function into `Option`), and
for every calendar date with a four-digit year, parsing the `DD-MM-YYYY`
rendering and parsing the `YYYY-MM-DD` rendering both return that same
calendar date. -/
theorem C9_parse_date_flexible_two_formats (y m d : Nat)
    (hv : validDate y m d = true) (_h4 : 1000 ≤ y) :
    parse_date_flexible (some (renderDDMMYYYY d m y)) = some ⟨y, m, d⟩
    ∧ parse_date_flexible (some (renderYYYYMMDD y m d)) = some ⟨y, m, d⟩
    ∧ (∀ s r, parseDDMMYYYY s.data = some r → parse_date_flexible (some s) = some r)
    ∧ (∀ s r, parseDDMMYYYY s.data = none → parseYYYYMMDD s.data = some r →
        parse_date_flexible (some s) = some r) := by
  refine ⟨?_, ?_, ?_, ?_⟩
  · rw [parse_date_flexible, if_neg (renderDDMMYYYY_ne_empty d m y),
      parseDDMMYYYY_render hv]
  · rw [parse_date_flexible, if_neg (renderYYYYMMDD_ne_empty y m d),
      parseDDMMYYYY_renderYYYYMMDD, parseYYYYMMDD_render hv]
  · intro s r h
    rw [parse_date_flexible]
    split
    · rename_i he
      rw [he] at h
      simp [parseDDMMYYYY, splitOnChar] at h
    · rw [h]
  · intro s r h1 h2
    rw [parse_date_flexible]
    split
    · rename_i he
      rw [he] at h2
      simp [parseYYYYMMDD, splitOnChar] at h2
    · rw [h1, h2]

/-- Witness for C9 at the date 2024-03-07. -/
theorem C9_witness :
    validDate 2024 3 7 = true ∧ 1000 ≤ 2024
    ∧ parse_date_flexible (some (renderDDMMYYYY 7 3 2024)) = some ⟨2024, 3, 7⟩
    ∧ parse_date_flexible (some (renderYYYYMMDD 2024 3 7)) = some ⟨2024, 3, 7⟩ :=
  ⟨by decide, by decide,
    (C9_parse_date_flexible_two_formats 2024 3 7 (by decide) (by decide)).1,
    (C9_parse_date_flexible_two_formats 2024 3 7 (by decide) (by decide)).2.1⟩

/-! ## Total duration: C6 and C10 -/

theorem totalSeconds_go (incs : List RawIncident) (a : Int) :
    incs.foldl
        (fun total inc =>
          if startDt inc ≤ endDt inc then total + (endDt inc - startDt inc) else total)
        a
      = a + ((incs.filter (fun i => startDt i ≤ endDt i)).map
          (fun i => endDt i - startDt i)).sum := by
  induction incs generalizing a with
  | nil => simp
  | cons inc rest ih =>
    by_cases h : startDt inc ≤ endDt inc
    · simp only [List.foldl_cons, if_pos h, ih, List.filter_cons, decide_eq_true_eq,
        List.map_cons, List.sum_cons]
      ring
    · simp only [List.foldl_cons, if_neg h, ih, List.filter_cons, decide_eq_true_eq]

theorem totalSeconds_eq_sum (incs : List RawIncident) :
    totalSeconds incs
      = ((incs.filter (fun i => startDt i ≤ endDt i)).map
          (fun i => endDt i - startDt i)).sum := by
  simpa using totalSeconds_go incs 0

theorem totalSeconds_nonneg (incs : List RawIncident) : 0 ≤ totalSeconds incs := by
  rw [totalSeconds_eq_sum]
  apply List.sum_nonneg
  intro x hx
  obtain ⟨i, hi, rfl⟩ := List.mem_map.mp hx
  have := List.of_mem_filter hi
  simp only [decide_eq_true_eq] at this
  omega

theorem string_ne_of_last {a b : String} (h : a.data.getLast? ≠ b.data.getLast?) :
    a ≠ b := fun he => h (he ▸ rfl)

theorem last_of_append {b : String} {c : Char} (a : String)
    (h : b.data.getLast? = some c) : (a ++ b).data.getLast? = some c := by
  rw [String.data_append, List.getLast?_append, h]
  rfl

theorem dias_ne_h (x y : Nat) : toString x ++ " días" ≠ toString y ++ " h" := by
  apply string_ne_of_last
  rw [last_of_append _ (show (" días" : String).data.getLast? = some 's' from rfl),
    last_of_append _ (show (" h" : String).data.getLast? = some 'h' from rfl)]
  decide

theorem dias_ne_min (x y : Nat) : toString x ++ " días" ≠ toString y ++ " min" := by
  apply string_ne_of_last
  rw [last_of_append _ (show (" días" : String).data.getLast? = some 's' from rfl),
    last_of_append _ (show (" min" : String).data.getLast? = some 'n' from rfl)]
  decide

theorem h_ne_min (x y : Nat) : toString x ++ " h" ≠ toString y ++ " min" := by
  apply string_ne_of_last
  rw [last_of_append _ (show (" h" : String).data.getLast? = some 'h' from rfl),
    last_of_append _ (show (" min" : String).data.getLast? = some 'n' from rfl)]
  decide

theorem durationParts_last (ts : Nat) :
    (durationParts ts).getLast? = some (toString (ts / 60 % 60) ++ " min") := by
  rw [durationParts]
  split <;> split <;> rfl

theorem durationParts_dias (ts : Nat) :
    (toString (ts / 86400) ++ " días") ∈ durationParts ts ↔ ts / 86400 ≠ 0 := by
  rw [durationParts]
  constructor
  · intro hmem h0
    rw [if_neg (by simpa using h0)] at hmem
    rcases List.mem_append.mp hmem with hm | hm
    · split at hm
      · exact dias_ne_h _ _ (List.mem_singleton.mp hm)
      · simp at hm
    · exact dias_ne_min _ _ (List.mem_singleton.mp hm)
  · intro h0
    rw [if_pos (by simpa using h0)]
    exact List.mem_append.mpr (Or.inl (List.mem_append.mpr (Or.inl (List.mem_singleton.mpr rfl))))

theorem durationParts_h (ts : Nat) :
    (toString (ts / 3600 % 24) ++ " h") ∈ durationParts ts ↔ ts / 3600 % 24 ≠ 0 := by
  rw [durationParts]
  constructor
  · intro hmem h0
    rcases List.mem_append.mp hmem with hm | hm
    · rcases List.mem_append.mp hm with hm2 | hm2
      · split at hm2
        · exact (dias_ne_h _ _ (List.mem_singleton.mp hm2).symm).elim
        · simp at hm2
      · rw [if_neg (by simpa using h0)] at hm2
        simp at hm2
    · exact h_ne_min _ _ (List.mem_singleton.mp hm)
  · intro h0
    refine List.mem_append.mpr (Or.inl (List.mem_append.mpr (Or.inr ?_)))
    rw [if_pos (by simpa using h0)]
    exact List.mem_singleton.mpr rfl

/-- C6.  `compute_total_duration` sums `end - start` over exactly the
incidents whose parsed end is at or after their parsed start; an incident
with end before start contributes zero wherever it sits in the list (and
parsing never fails, the function is total); the report list always ends
with the minutes component, and carries the days (hours) component exactly
when that component is nonzero. -/
theorem C6_compute_total_duration (incs : List RawIncident) :
    (totalSeconds incs
        = ((incs.filter (fun i => startDt i ≤ endDt i)).map
            (fun i => endDt i - startDt i)).sum)
    ∧ (∀ pre post inc, endDt inc < startDt inc →
        totalSeconds (pre ++ inc :: post) = totalSeconds (pre ++ post))
    ∧ ((durationParts (totalSeconds incs).toNat).getLast?
        = some (toString ((totalSeconds incs).toNat / 60 % 60) ++ " min"))
    ∧ ((toString ((totalSeconds incs).toNat / 86400) ++ " días")
          ∈ durationParts (totalSeconds incs).toNat
        ↔ (totalSeconds incs).toNat / 86400 ≠ 0)
    ∧ ((toString ((totalSeconds incs).toNat / 3600 % 24) ++ " h")
          ∈ durationParts (totalSeconds incs).toNat
        ↔ (totalSeconds incs).toNat / 3600 % 24 ≠ 0)
    ∧ (compute_total_duration incs
        = (String.intercalate " " (durationParts (totalSeconds incs).toNat),
            (totalSeconds incs).toNat / 60)) := by
  refine ⟨totalSeconds_eq_sum incs, ?_, durationParts_last _, durationParts_dias _,
    durationParts_h _, rfl⟩
  intro pre post inc hlt
  rw [totalSeconds, totalSeconds, List.foldl_append, List.foldl_append, List.foldl_cons,
    if_neg (by omega)]

/-- Witness for C6 with a list whose second incident has end before start:
only the first incident (duration 3600 s) is counted. -/
theorem C6_witness :
    totalSeconds
        [⟨some "10-01-2024", none, some "05:00", none,
            some "10-01-2024", none, some "06:00", none⟩,
          ⟨some "10-01-2024", none, some "09:00", none,
            some "10-01-2024", none, some "08:00", none⟩]
      = 3600
    ∧ totalSeconds
        (([] : List RawIncident) ++
          (⟨some "10-01-2024", none, some "09:00", none,
              some "10-01-2024", none, some "08:00", none⟩ : RawIncident) :: [])
      = totalSeconds (([] : List RawIncident) ++ []) := by
  constructor
  · decide
  · exact (C6_compute_total_duration []).2.1 [] []
      ⟨some "10-01-2024", none, some "09:00", none,
        some "10-01-2024", none, some "08:00", none⟩ (by decide)

/-- C10.  When the start date string parses in neither format, the flexible
datetime parser returns the sentinel 1900-01-01 00:00:00 for the start, and
whenever the parsed end instant is strictly after that sentinel the
incident contributes `end - sentinel` (strictly positive) to the total
duration, wherever it sits in the list — not zero. -/
theorem C10_sentinel_start (inc : RawIncident)
    (hfail : parse_date_flexible (effFechaIni inc) = none)
    (hafter : epoch1900 < endDt inc) :
    startDt inc = epoch1900
    ∧ totalSeconds [inc] = endDt inc - epoch1900
    ∧ 0 < totalSeconds [inc]
    ∧ (∀ pre : List RawIncident,
        totalSeconds (pre ++ [inc]) = totalSeconds pre + (endDt inc - epoch1900)) := by
  have hstart : startDt inc = epoch1900 := by
    rw [startDt, parse_datetime_flexible, hfail]
  refine ⟨hstart, ?_, ?_, ?_⟩
  · rw [totalSeconds, List.foldl_cons, List.foldl_nil, if_pos (by omega), hstart]
    omega
  · rw [totalSeconds, List.foldl_cons, List.foldl_nil, if_pos (by omega), hstart]
    omega
  · intro pre
    rw [totalSeconds, totalSeconds, List.foldl_append, List.foldl_cons, List.foldl_nil,
      if_pos (by omega), hstart]

/-- Witness for C10 at the record `egC10`. -/
theorem C10_witness :
    parse_date_flexible (effFechaIni egC10) = none
    ∧ epoch1900 < endDt egC10
    ∧ startDt egC10 = epoch1900
    ∧ totalSeconds [egC10] = endDt egC10 - epoch1900
    ∧ 0 < totalSeconds [egC10] :=
  ⟨by decide, by decide,
    (C10_sentinel_start egC10 (by decide) (by decide)).1,
    (C10_sentinel_start egC10 (by decide) (by decide)).2.1,
    (C10_sentinel_start egC10 (by decide) (by decide)).2.2.1⟩

/-! ## Query construction: C1, C2, C7 -/

theorem replaceChar_append (xs ys : List Char) (c : Char) (r : List Char) :
    replaceChar (xs ++ ys) c r = replaceChar xs c r ++ replaceChar ys c r := by
  induction xs with
  | nil => rfl
  | cons x xs ih => simp [replaceChar, ih]

theorem escFluxList_cons (c : Char) (cs : List Char) :
    escFluxList (c :: cs)
      = (if c = '\\' then ['\\', '\\'] else if c = '"' then ['\\', '"'] else [c])
        ++ escFluxList cs := by
  by_cases h1 : c = '\\'
  · subst h1
    simp [escFluxList, replaceChar, replaceChar_append]
  · by_cases h2 : c = '"'
    · subst h2
      simp [escFluxList, replaceChar, replaceChar_append]
    · simp [escFluxList, replaceChar, replaceChar_append, h1, h2]

theorem fluxLitBody_cons (c : Char) (rest : List Char) :
    fluxLitBody (c :: rest)
      = if c = '"' then (if rest = [] then some [] else none)
        else if c = '\\' then
          (match rest with
           | [] => none
           | c2 :: rest2 =>
             if c2 = '"' ∨ c2 = '\\' then (fluxLitBody rest2).map (c2 :: ·) else none)
        else (fluxLitBody rest).map (c :: ·) := by
  rw [fluxLitBody.eq_def]

theorem fluxLitBody_escape (cs : List Char) :
    fluxLitBody (escFluxList cs ++ ['"']) = some cs := by
  induction cs with
  | nil => rfl
  | cons c cs ih =>
    rw [escFluxList_cons]
    by_cases h1 : c = '\\'
    · subst h1
      simp [fluxLitBody, ih]
    · by_cases h2 : c = '"'
      · subst h2
        simp [fluxLitBody, ih]
      · rw [if_neg h1, if_neg h2, List.singleton_append, List.cons_append,
          fluxLitBody_cons, if_neg h2, if_neg h1, ih]
        rfl

theorem parseFluxLit_escape (s : String) :
    parseFluxLit ('"' :: (escape_flux s).data ++ ['"']) = some s.data :=
  fluxLitBody_escape s.data

/-- C1 as stated is false: the district filter value is embedded verbatim,
not escaped.  With district `a"b` the emitted stage carries the raw value,
which differs from the escaped embedding and is not one single well-formed
Flux string literal. -/
theorem C1_counterexample :
    filter_clauses (some "a\"b") none none = [fluxFilterClause "distrito" "a\"b"]
    ∧ fluxFilterClause "distrito" "a\"b"
        = "|> filter(fn: (r) => r.distrito == \"a\"b\")"
    ∧ fluxFilterClause "distrito" "a\"b" ≠ fluxFilterClause "distrito" (escape_flux "a\"b")
    ∧ parseFluxLit ('"' :: ("a\"b" : String).data ++ ['"']) = none :=
  ⟨by decide, by decide, by decide, by decide⟩

/-- C1 amended.  District, cause and voltage-level stages are appended only
when the value is truthy (voltage level moreover only when it is exactly
`BT` or `MT`); only the cause value is escaped (backslash first, then
quote), the district value is embedded verbatim; the escaping is correct:
for every string, wrapping the escaped value in quotes yields one single
well-formed Flux literal denoting exactly that string — in particular for
the cause value `O'Brien "short"`. -/
theorem C1_filter_clauses_escaping (d c n : Option String) :
    filter_clauses d c n
      = (if truthy d then [fluxFilterClause "distrito" (pyGetD d)] else [])
        ++ (if truthy c then
              [fluxFilterClause "descripcion_de_la_causa" (escape_flux (pyGetD c))]
            else [])
        ++ (if n = some "BT" ∨ n = some "MT" then
              [fluxFilterClause "nivel_tension" (pyGetD n)]
            else [])
    ∧ (∀ s : String, parseFluxLit ('"' :: (escape_flux s).data ++ ['"']) = some s.data)
    ∧ escape_flux "O'Brien \"short\"" = "O'Brien \\\"short\\\""
    ∧ parseFluxLit ('"' :: (escape_flux "O'Brien \"short\"").data ++ ['"'])
        = some ("O'Brien \"short\"").data := by
  refine ⟨?_, fun s => parseFluxLit_escape s, by decide, parseFluxLit_escape _⟩
  cases d <;> cases c <;> cases n <;>
    simp [filter_clauses, truthy, pyGetD]

/-- C2.  With a start date and no end date, the built range is exactly
`[utc(local midnight of the day), utc(local midnight of the next day))`:
one 1440-minute window whose (exclusive-stop) membership is equivalent to
falling on that local calendar day — not a window anchored at the current
time and not a multi-day window. -/
theorem C2_single_day_window (sd : Date) :
    build_range (some sd) none
      = .explicitRange (utcOfLocalMinutes (localMidnight sd))
          (utcOfLocalMinutes (localMidnight sd + 1440))
    ∧ utcOfLocalMinutes (localMidnight sd + 1440)
        = utcOfLocalMinutes (localMidnight sd) + 1440
    ∧ (∀ t : Int,
        (utcOfLocalMinutes (localMidnight sd) ≤ t
            ∧ t < utcOfLocalMinutes (localMidnight sd + 1440))
          ↔ localDayOfUtc t = (sd.toOrdinal : Int)) := by
  refine ⟨rfl, by unfold utcOfLocalMinutes; ring, ?_⟩
  intro t
  unfold utcOfLocalMinutes localMidnight localDayOfUtc
  omega

/-- C7 as stated is false for the spreadsheet download path: with an end
date and no start date, `download_xls` does not reject; it runs the very
query it would run with no dates at all (default five-year lookback), the
end date silently ignored. -/
theorem C7_counterexample :
    download_xls_query none (some ⟨2024, 1, 10⟩) none none none
      = download_xls_query none none none none none
    ∧ (download_xls_query none (some ⟨2024, 1, 10⟩) none none none).range
        = QueryRange.last5y :=
  ⟨rfl, rfl⟩

/-- C7 amended.  The table/index POST path rejects an end date given
without a start date (flashed error, no query); the spreadsheet download
path performs no such validation: it silently ignores the end date and
issues the default five-year query. -/
theorem C7_end_without_start (ed : Date) (d c n : Option String) :
    index_post none (some ed) d c n = .rejected "Seleccione primero la fecha Desde."
    ∧ download_xls_query none (some ed) d c n
        = ⟨QueryRange.last5y, filter_clauses d c n⟩
    ∧ download_xls_query none (some ed) d c n = download_xls_query none none d c n :=
  ⟨rfl, rfl, rfl⟩

/-! ## Pareto aggregation: C5 -/

theorem acumCents_chain (total run : Nat) (vs : List Nat) :
    List.Chain' (· ≤ ·) (acumCents total run vs) := by
  induction vs generalizing run with
  | nil => simp [acumCents]
  | cons v vs ih =>
    rw [acumCents, List.chain'_cons']
    refine ⟨?_, ih (run + v)⟩
    intro b hb
    cases vs with
    | nil => simp [acumCents] at hb
    | cons v2 vs2 =>
      rw [acumCents] at hb
      simp only [List.head?_cons, Option.mem_def, Option.some_inj] at hb
      subst hb
      exact Nat.div_le_div_right (by omega)

theorem getLast?_cons_of_ne_nil {α : Type} (a : α) {l : List α} (h : l ≠ []) :
    (a :: l).getLast? = l.getLast? := by
  cases l with
  | nil => exact absurd rfl h
  | cons b t => rfl

theorem acumCents_ne_nil (total run v : Nat) (vs : List Nat) :
    acumCents total run (v :: vs) ≠ [] := by
  rw [acumCents]
  simp

theorem acumCents_getLast (total : Nat) (v : Nat) (vs : List Nat) : ∀ run,
    (acumCents total run (v :: vs)).getLast?
      = some ((20000 * (run + (v :: vs).sum) + total) / (2 * total)) := by
  induction vs generalizing v with
  | nil =>
    intro run
    rw [acumCents, acumCents]
    simp
  | cons v2 vs2 ih =>
    intro run
    rw [acumCents, getLast?_cons_of_ne_nil _ (acumCents_ne_nil total (run + v) v2 vs2),
      ih v2 (run + v)]
    congr 2
    simp [List.sum_cons]
    omega

theorem pareto_final_div (T : Nat) (hT : T ≠ 0) : (20000 * T + T) / (2 * T) = 10000 := by
  have h1 : 20000 * T + T = T + 2 * T * 10000 := by ring
  rw [h1, Nat.add_mul_div_left _ _ (by omega : 0 < 2 * T), Nat.div_eq_of_lt (by omega)]

theorem bumpAgg_ne_nil (agg : List (String × Nat)) (k : String) (v : Nat) :
    bumpAgg agg k v ≠ [] := by
  cases agg with
  | nil => simp [bumpAgg]
  | cons kv rest =>
    obtain ⟨k1, v1⟩ := kv
    rw [bumpAgg]
    split <;> simp

theorem bumpAgg_ge {c : Nat} (agg : List (String × Nat)) (k : String) (v : Nat)
    (h1 : ∀ kv ∈ agg, c ≤ kv.2) (h2 : c ≤ v) :
    ∀ kv ∈ bumpAgg agg k v, c ≤ kv.2 := by
  induction agg with
  | nil =>
    intro kv hkv
    rw [bumpAgg, List.mem_singleton] at hkv
    subst hkv
    exact h2
  | cons kv0 rest ih =>
    obtain ⟨k1, v1⟩ := kv0
    intro kv hkv
    rw [bumpAgg] at hkv
    split at hkv
    · rcases List.mem_cons.mp hkv with rfl | hm
      · have := h1 (k1, v1) (List.mem_cons_self _ _)
        simp only at this ⊢
        omega
      · exact h1 kv (List.mem_cons_of_mem _ hm)
    · rcases List.mem_cons.mp hkv with rfl | hm
      · exact h1 (k1, v1) (List.mem_cons_self _ _)
      · exact ih (fun x hx => h1 x (List.mem_cons_of_mem _ hx)) kv hm

theorem paretoAgg_fold_ge {metric : String} (hm : metric ≠ "minutos")
    (rows : List PRow) : ∀ agg, (∀ kv ∈ agg, 60 ≤ kv.2) →
    ∀ kv ∈ rows.foldl
      (fun agg r => bumpAgg agg r.causa (if metric = "minutos" then r.durSecs else 60))
      agg, 60 ≤ kv.2 := by
  induction rows with
  | nil => intro agg h kv hkv; exact h kv hkv
  | cons r rest ih =>
    intro agg h kv hkv
    rw [List.foldl_cons] at hkv
    exact ih _ (bumpAgg_ge agg r.causa _ h (by simp [hm])) kv hkv

theorem paretoAgg_ge {metric : String} (hm : metric ≠ "minutos") (rows : List PRow) :
    ∀ kv ∈ paretoAgg metric rows, 60 ≤ kv.2 :=
  paretoAgg_fold_ge hm rows [] (by simp)

theorem paretoAgg_fold_ne_nil (metric : String) (rows : List PRow) :
    ∀ agg, agg ≠ [] →
    rows.foldl
      (fun agg r => bumpAgg agg r.causa (if metric = "minutos" then r.durSecs else 60))
      agg ≠ [] := by
  induction rows with
  | nil => intro agg h; exact h
  | cons r rest ih =>
    intro agg h
    rw [List.foldl_cons]
    exact ih _ (bumpAgg_ne_nil agg r.causa _)

theorem paretoAgg_ne_nil (metric : String) {rows : List PRow} (h : rows ≠ []) :
    paretoAgg metric rows ≠ [] := by
  cases rows with
  | nil => exact absurd rfl h
  | cons r rest =>
    rw [paretoAgg, List.foldl_cons]
    exact paretoAgg_fold_ne_nil metric rest _ (bumpAgg_ne_nil [] r.causa _)

theorem insertDesc_perm (x : String × Nat) (l : List (String × Nat)) :
    (insertDesc x l).Perm (x :: l) := by
  induction l with
  | nil => exact List.Perm.refl _
  | cons y ys ih =>
    rw [insertDesc]
    split
    · exact List.Perm.refl _
    · exact (ih.cons y).trans (List.Perm.swap x y ys)

theorem sortDesc_fold_perm (l : List (String × Nat)) : ∀ acc,
    (l.foldl (fun acc x => insertDesc x acc) acc).Perm (acc ++ l) := by
  induction l with
  | nil => intro acc; simp
  | cons x xs ih =>
    intro acc
    rw [List.foldl_cons]
    exact (ih (insertDesc x acc)).trans
      (((insertDesc_perm x acc).append_right xs).trans List.perm_middle.symm)

theorem sortDesc_perm (l : List (String × Nat)) : (sortDesc l).Perm l := by
  simpa using sortDesc_fold_perm l []

theorem centsOfSixtieths_ge {v : Nat} (h : 60 ≤ v) : 100 ≤ centsOfSixtieths v := by
  rw [centsOfSixtieths, Nat.le_div_iff_mul_le (by omega)]
  omega

/-- C5 as stated is false under the `minutos` metric when every duration is
zero: for a single zero-duration incident the cumulative list is `[0]`
(zero percent), not ending at 100.00 (= 10000 cents). -/
theorem C5_counterexample :
    (api_pareto_causas "minutos" [⟨"A", 0⟩]).acumulada = [0]
    ∧ (api_pareto_causas "minutos" [⟨"A", 0⟩]).acumulada.getLast? ≠ some 10000 :=
  ⟨by decide, by decide⟩

set_option maxRecDepth 20000 in
/-- C5 amended.  For every non-empty incident set the cumulative list is
monotonically non-decreasing; it ends at exactly 100.00 (10000 cents)
whenever the rounded values do not sum to zero — which holds always under
the incident-count metric (for the `minutos` metric with all durations
zero the list is identically zero instead); the output is the top 12
sorted categories plus a final `Otros` bucket exactly when more than 12
causes exist (never more than 13 categories); and the 14-cause scenario
with counts [50,40,30,20,15,10,8,6,5,4,3,2,1,1] yields the 12 named
categories plus `Otros` valued 2.00, with cumulative ending at 100.00. -/
theorem C5_pareto_by_cause (metric : String) (rows : List PRow) (hrows : rows ≠ []) :
    List.Chain' (· ≤ ·) (api_pareto_causas metric rows).acumulada
    ∧ ((paretoValues metric rows).sum ≠ 0 →
        (api_pareto_causas metric rows).acumulada.getLast? = some 10000)
    ∧ (metric ≠ "minutos" → (paretoValues metric rows).sum ≠ 0)
    ∧ (api_pareto_causas metric rows).categories
        = ((sortDesc (paretoAgg metric rows)).take 12).map (fun kv => kv.1)
          ++ (if (sortDesc (paretoAgg metric rows)).drop 12 = [] then [] else ["Otros"])
    ∧ (api_pareto_causas metric rows).categories.length ≤ 13
    ∧ (api_pareto_causas "incidencias" paretoScenarioRows).categories
        = ["C01", "C02", "C03", "C04", "C05", "C06", "C07", "C08", "C09", "C10",
            "C11", "C12", "Otros"]
    ∧ (api_pareto_causas "incidencias" paretoScenarioRows).values
        = [5000, 4000, 3000, 2000, 1500, 1000, 800, 600, 500, 400, 300, 200, 200]
    ∧ (api_pareto_causas "incidencias" paretoScenarioRows).acumulada.getLast?
        = some 10000 := by
  refine ⟨acumCents_chain _ 0 _, ?_, ?_, ?_, ?_, by decide, by decide, by decide⟩
  · intro hsum
    have hT : paretoTotal metric rows = (paretoValues metric rows).sum := by
      rw [paretoTotal, if_neg hsum]
    show (acumCents (paretoTotal metric rows) 0 (paretoValues metric rows)).getLast?
      = some 10000
    cases hV : paretoValues metric rows with
    | nil => rw [hV] at hsum; exact absurd rfl hsum
    | cons v vs =>
      rw [acumCents_getLast, hT, hV, Nat.zero_add,
        pareto_final_div _ (by rw [hV] at hsum; exact hsum)]
  · intro hm hsum0
    have hagg := paretoAgg_ne_nil metric hrows
    have hperm := sortDesc_perm (paretoAgg metric rows)
    have hitems : sortDesc (paretoAgg metric rows) ≠ [] := by
      intro h0
      rw [h0] at hperm
      exact hagg hperm.symm.eq_nil
    obtain ⟨i0, irest, hitems_eq⟩ := List.exists_cons_of_ne_nil hitems
    have hi0_agg : i0 ∈ paretoAgg metric rows :=
      hperm.mem_iff.mp (hitems_eq ▸ List.mem_cons_self _ _)
    have hi0v : 60 ≤ i0.2 := paretoAgg_ge hm rows i0 hi0_agg
    have hi0_top : i0 ∈ paretoTop2 metric rows := by
      rw [paretoTop2]
      have htake : i0 ∈ (sortDesc (paretoAgg metric rows)).take 12 := by
        rw [hitems_eq]
        exact List.mem_cons_self _ _
      split
      · exact htake
      · exact List.mem_append.mpr (Or.inl htake)
    have hc_mem : centsOfSixtieths i0.2 ∈ paretoValues metric rows :=
      List.mem_map.mpr ⟨i0, hi0_top, rfl⟩
    have hle : centsOfSixtieths i0.2 ≤ (paretoValues metric rows).sum :=
      List.single_le_sum (fun x _ => Nat.zero_le x) _ hc_mem
    have := centsOfSixtieths_ge hi0v
    omega
  · show (paretoTop2 metric rows).map (fun kv => kv.1) = _
    rw [paretoTop2]
    split
    · simp
    · simp
  · show ((paretoTop2 metric rows).map (fun kv => kv.1)).length ≤ 13
    rw [List.length_map, paretoTop2]
    split
    · simp only [List.length_take]
      omega
    · simp only [List.length_append, List.length_take, List.length_singleton]
      omega

/-- Witness for C5 at a one-incident list under the count metric. -/
theorem C5_witness :
    ([⟨"A", 0⟩] : List PRow) ≠ []
    ∧ List.Chain' (· ≤ ·) (api_pareto_causas "incidencias" [⟨"A", 0⟩]).acumulada
    ∧ ("incidencias" : String) ≠ "minutos"
    ∧ (paretoValues "incidencias" [⟨"A", 0⟩]).sum ≠ 0
    ∧ (api_pareto_causas "incidencias" [⟨"A", 0⟩]).acumulada.getLast? = some 10000 := by
  refine ⟨by decide, (C5_pareto_by_cause "incidencias" [⟨"A", 0⟩] (by decide)).1,
    by decide, ?_, ?_⟩
  · exact (C5_pareto_by_cause "incidencias" [⟨"A", 0⟩] (by decide)).2.2.1 (by decide)
  · exact (C5_pareto_by_cause "incidencias" [⟨"A", 0⟩] (by decide)).2.1
      ((C5_pareto_by_cause "incidencias" [⟨"A", 0⟩] (by decide)).2.2.1 (by decide))

/-! ## Weather correlation: C8 -/

theorem collectMissing_length (l : List WIncident) : ∀ i room, 1 ≤ room →
    (collectMissing i room l).length ≤ room := by
  induction l with
  | nil => intro i room _; simp [collectMissing]
  | cons inc rest ih =>
    intro i room h
    rw [collectMissing]
    by_cases hmk : missingKeys inc = []
    · rw [if_pos hmk]
      exact ih (i + 1) room h
    · rw [if_neg hmk]
      by_cases hroom : room ≤ 1
      · rw [if_pos hroom]
        simpa using h
      · rw [if_neg hroom]
        have := ih (i + 1) (room - 1) (by omega)
        simp only [List.length_cons]
        omega

theorem collectMissing_ne_nil (l : List WIncident) : ∀ i room, 1 ≤ room →
    (∃ inc ∈ l, missingKeys inc ≠ []) → collectMissing i room l ≠ [] := by
  induction l with
  | nil => intro i room _ h; simp at h
  | cons inc rest ih =>
    intro i room hr h
    rw [collectMissing]
    by_cases hmk : missingKeys inc = []
    · rw [if_pos hmk]
      apply ih (i + 1) room hr
      rcases h with ⟨x, hx, hxm⟩
      rcases List.mem_cons.mp hx with rfl | hm
      · exact absurd hmk hxm
      · exact ⟨x, hm, hxm⟩
    · rw [if_neg hmk]
      by_cases hroom : room ≤ 1
      · rw [if_pos hroom]; simp
      · rw [if_neg hroom]; simp

theorem collectMissing_nil_of_valid (l : List WIncident) : ∀ i room,
    (∀ inc ∈ l, missingKeys inc = []) → collectMissing i room l = [] := by
  induction l with
  | nil => intro i room _; rfl
  | cons inc rest ih =>
    intro i room h
    rw [collectMissing, if_pos (h inc (List.mem_cons_self _ _))]
    exact ih (i + 1) room (fun x hx => h x (List.mem_cons_of_mem _ hx))

theorem collectMissing_entries (l : List WIncident) : ∀ i room,
    ∀ e ∈ collectMissing i room l,
      ∃ inc, l.get? (e.idx - i) = some inc ∧ i ≤ e.idx
        ∧ e.missing = missingKeys inc ∧ e.missing ≠ [] ∧ e.eg = requiredProj inc := by
  induction l with
  | nil => intro i room e he; simp [collectMissing] at he
  | cons inc rest ih =>
    intro i room e he
    rw [collectMissing] at he
    by_cases hmk : missingKeys inc = []
    · rw [if_pos hmk] at he
      obtain ⟨inc', h1, h2, h3, h4, h5⟩ := ih (i + 1) room e he
      refine ⟨inc', ?_, by omega, h3, h4, h5⟩
      rw [show e.idx - i = (e.idx - (i + 1)) + 1 from by omega]
      simpa using h1
    · rw [if_neg hmk] at he
      by_cases hroom : room ≤ 1
      · rw [if_pos hroom, List.mem_singleton] at he
        subst he
        exact ⟨inc, by simp, le_refl i, rfl, hmk, rfl⟩
      · rw [if_neg hroom] at he
        rcases List.mem_cons.mp he with rfl | hm
        · exact ⟨inc, by simp, le_refl i, rfl, hmk, rfl⟩
        · obtain ⟨inc', h1, h2, h3, h4, h5⟩ := ih (i + 1) (room - 1) e hm
          refine ⟨inc', ?_, by omega, h3, h4, h5⟩
          rw [show e.idx - i = (e.idx - (i + 1)) + 1 from by omega]
          simpa using h1

/-- C8.  When any incident lacks a present, non-empty district, start or
end, the whole correlation fails at once with a validation error carrying
between one and three recorded offenders — each naming exactly the keys
that incident lacks, with the projection of its required keys as the
example — and no weather fetch is issued and no row produced. -/
theorem C8_required_key_validation (qf : WeatherQueryFn) (incidents : List WIncident)
    (tags : List (String × String))
    (hbad : ∃ inc ∈ incidents, missingKeys inc ≠ []) :
    cross_incidents_with_weather qf incidents tags
        = (.error (.validation (require_keys_for_cross incidents)), [])
    ∧ require_keys_for_cross incidents ≠ []
    ∧ (require_keys_for_cross incidents).length ≤ 3
    ∧ ∀ e ∈ require_keys_for_cross incidents,
        e.missing ≠ [] ∧ ∃ inc, incidents.get? e.idx = some inc
          ∧ e.missing = missingKeys inc ∧ e.eg = requiredProj inc := by
  have hne : require_keys_for_cross incidents ≠ [] :=
    collectMissing_ne_nil incidents 0 3 (by omega) hbad
  refine ⟨?_, hne, collectMissing_length incidents 0 3 (by omega), ?_⟩
  · rw [cross_incidents_with_weather, if_neg hne]
  · intro e he
    obtain ⟨inc, h1, _, h3, h4, h5⟩ := collectMissing_entries incidents 0 3 e he
    exact ⟨h4, inc, by simpa using h1, h3, h5⟩

/-- Witness for C8 at a one-element list whose incident has a whitespace
district and no end datetime. -/
theorem C8_witness :
    (∃ inc ∈ ([⟨some "  ", some ⟨0, false⟩, none, 7⟩] : List WIncident),
        missingKeys inc ≠ [])
    ∧ cross_incidents_with_weather qfEmpty [⟨some "  ", some ⟨0, false⟩, none, 7⟩] []
        = (.error (.validation
            (require_keys_for_cross [⟨some "  ", some ⟨0, false⟩, none, 7⟩])), [])
    ∧ require_keys_for_cross [⟨some "  ", some ⟨0, false⟩, none, 7⟩] ≠ []
    ∧ (require_keys_for_cross [⟨some "  ", some ⟨0, false⟩, none, 7⟩]).length ≤ 3 := by
  refine ⟨by decide, ?_, ?_, ?_⟩
  · exact (C8_required_key_validation qfEmpty _ [] (by decide)).1
  · exact (C8_required_key_validation qfEmpty _ [] (by decide)).2.1
  · exact (C8_required_key_validation qfEmpty _ [] (by decide)).2.2.1

/-! ## Weather correlation: C4 -/

theorem missingKeys_eq_nil {inc : WIncident} (h : missingKeys inc = []) :
    inc.distrito ≠ none ∧ pyStrip (pyGetD inc.distrito) ≠ ""
    ∧ inc.dt_inicio_local ≠ none ∧ inc.dt_fin_local ≠ none := by
  rw [missingKeys] at h
  obtain ⟨hAB, hC⟩ := List.append_eq_nil.mp h
  obtain ⟨hA, hB⟩ := List.append_eq_nil.mp hAB
  have hA' : ¬(inc.distrito = none ∨ pyStrip (pyGetD inc.distrito) = "") := by
    intro hP
    rw [if_pos hP] at hA
    exact List.cons_ne_nil _ _ hA
  refine ⟨fun hd => hA' (Or.inl hd), fun hs => hA' (Or.inr hs), ?_, ?_⟩
  · intro hP
    rw [if_pos hP] at hB
    exact List.cons_ne_nil _ _ hB
  · intro hP
    rw [if_pos hP] at hC
    exact List.cons_ne_nil _ _ hC

theorem pyMinList_flag (b : Bool) : ∀ (l : List LDT) (a : LDT), a.aware = b →
    (∀ x ∈ l, x.aware = b) → ∃ t, pyMinList a l = .ok t ∧ t.aware = b := by
  intro l
  induction l with
  | nil => intro a ha _; exact ⟨a, rfl, ha⟩
  | cons x xs ih =>
    intro a ha hl
    have hx := hl x (List.mem_cons_self _ _)
    rw [pyMinList, pyCmpMin, if_pos (ha.trans hx.symm)]
    exact ih (if x.mins < a.mins then x else a) (by split <;> assumption)
      (fun y hy => hl y (List.mem_cons_of_mem _ hy))

theorem pyMaxList_flag (b : Bool) : ∀ (l : List LDT) (a : LDT), a.aware = b →
    (∀ x ∈ l, x.aware = b) → ∃ t, pyMaxList a l = .ok t ∧ t.aware = b := by
  intro l
  induction l with
  | nil => intro a ha _; exact ⟨a, rfl, ha⟩
  | cons x xs ih =>
    intro a ha hl
    have hx := hl x (List.mem_cons_self _ _)
    rw [pyMaxList, pyCmpMax, if_pos (ha.trans hx.symm)]
    exact ih (if a.mins < x.mins then x else a) (by split <;> assumption)
      (fun y hy => hl y (List.mem_cons_of_mem _ hy))

theorem groupFlags {items : List WIncident}
    (hval : ∀ x ∈ items, missingKeys x = []) {b : Bool}
    (hflag : ∀ x ∈ items, ∀ dt : LDT,
      (x.dt_inicio_local = some dt ∨ x.dt_fin_local = some dt) → dt.aware = b) :
    ∀ x ∈ items, (getDT x.dt_inicio_local).aware = b
      ∧ (getDT x.dt_fin_local).aware = b := by
  intro x hx
  obtain ⟨_, _, h3, h4⟩ := missingKeys_eq_nil (hval x hx)
  constructor
  · cases hdi : x.dt_inicio_local with
    | none => exact absurd hdi h3
    | some dt => exact hflag x hx dt (Or.inl hdi)
  · cases hdf : x.dt_fin_local with
    | none => exact absurd hdf h4
    | some dt => exact hflag x hx dt (Or.inr hdf)

theorem windowOf_aware {items : List WIncident} (hne : items ≠ [])
    (hval : ∀ x ∈ items, missingKeys x = [])
    (haware : ∀ x ∈ items, ∀ dt : LDT,
      (x.dt_inicio_local = some dt ∨ x.dt_fin_local = some dt) → dt.aware = true) :
    windowOf items = .error "Not naive datetime (tzinfo is already set)" := by
  cases items with
  | nil => exact absurd rfl hne
  | cons i rest =>
    have hflags := groupFlags hval haware
    obtain ⟨t0, ht0, ht0b⟩ := pyMinList_flag true (rest.map (fun j => getDT j.dt_inicio_local))
      (getDT i.dt_inicio_local) (hflags i (List.mem_cons_self _ _)).1
      (by
        intro y hy
        obtain ⟨j, hj, rfl⟩ := List.mem_map.mp hy
        exact (hflags j (List.mem_cons_of_mem _ hj)).1)
    obtain ⟨t1, ht1, ht1b⟩ := pyMaxList_flag true (rest.map (fun j => getDT j.dt_fin_local))
      (getDT i.dt_fin_local) (hflags i (List.mem_cons_self _ _)).2
      (by
        intro y hy
        obtain ⟨j, hj, rfl⟩ := List.mem_map.mp hy
        exact (hflags j (List.mem_cons_of_mem _ hj)).2)
    rw [windowOf]
    simp only [ht0, ht1, pyLocalizeToUtc, ht0b]
    rfl

theorem windowOf_naive {items : List WIncident} (hne : items ≠ [])
    (hval : ∀ x ∈ items, missingKeys x = [])
    (hnaive : ∀ x ∈ items, ∀ dt : LDT,
      (x.dt_inicio_local = some dt ∨ x.dt_fin_local = some dt) → dt.aware = false) :
    ∃ w, windowOf items = .ok w := by
  cases items with
  | nil => exact absurd rfl hne
  | cons i rest =>
    have hflags := groupFlags hval hnaive
    obtain ⟨t0, ht0, ht0b⟩ := pyMinList_flag false (rest.map (fun j => getDT j.dt_inicio_local))
      (getDT i.dt_inicio_local) (hflags i (List.mem_cons_self _ _)).1
      (by
        intro y hy
        obtain ⟨j, hj, rfl⟩ := List.mem_map.mp hy
        exact (hflags j (List.mem_cons_of_mem _ hj)).1)
    obtain ⟨t1, ht1, ht1b⟩ := pyMaxList_flag false (rest.map (fun j => getDT j.dt_fin_local))
      (getDT i.dt_fin_local) (hflags i (List.mem_cons_self _ _)).2
      (by
        intro y hy
        obtain ⟨j, hj, rfl⟩ := List.mem_map.mp hy
        exact (hflags j (List.mem_cons_of_mem _ hj)).2)
    rw [windowOf]
    simp only [ht0, ht1, pyLocalizeToUtc, ht0b, ht1b]
    exact ⟨_, rfl⟩

theorem addToGroup_sound {P : WIncident → Prop} {k : String} {inc : WIncident} :
    ∀ {g : List (String × List WIncident)},
    (∀ p ∈ g, p.2 ≠ [] ∧ ∀ x ∈ p.2, P x) → P inc →
    ∀ p ∈ addToGroup g k inc, p.2 ≠ [] ∧ ∀ x ∈ p.2, P x := by
  intro g
  induction g with
  | nil =>
    intro _ hinc p hp
    rw [addToGroup, List.mem_singleton] at hp
    subst hp
    exact ⟨by simp, by intro x hx; rw [List.mem_singleton] at hx; subst hx; exact hinc⟩
  | cons q rest ih =>
    obtain ⟨k1, l⟩ := q
    intro hg hinc p hp
    rw [addToGroup] at hp
    split at hp
    · rcases List.mem_cons.mp hp with rfl | hm
      · refine ⟨by simp, ?_⟩
        intro x hx
        rcases List.mem_append.mp hx with hx | hx
        · exact (hg (k1, l) (List.mem_cons_self _ _)).2 x hx
        · rw [List.mem_singleton] at hx
          subst hx
          exact hinc
      · exact hg p (List.mem_cons_of_mem _ hm)
    · rcases List.mem_cons.mp hp with rfl | hm
      · exact hg (k1, l) (List.mem_cons_self _ _)
      · exact ih (fun q hq => hg q (List.mem_cons_of_mem _ hq)) hinc p hm

theorem groupBy_fold_sound (P : WIncident → Prop) (incs : List WIncident) :
    ∀ g, (∀ p ∈ g, p.2 ≠ [] ∧ ∀ x ∈ p.2, P x) → (∀ inc ∈ incs, P inc) →
    ∀ p ∈ incs.foldl (fun g inc => addToGroup g (pyGetD inc.distrito) inc) g,
      p.2 ≠ [] ∧ ∀ x ∈ p.2, P x := by
  induction incs with
  | nil => intro g hg _; exact hg
  | cons j rest ih =>
    intro g hg hincs
    rw [List.foldl_cons]
    exact ih _ (addToGroup_sound hg (hincs j (List.mem_cons_self _ _)))
      (fun x hx => hincs x (List.mem_cons_of_mem _ hx))

theorem groupByDistrito_sound (P : WIncident → Prop) (incs : List WIncident)
    (h : ∀ inc ∈ incs, P inc) :
    ∀ p ∈ groupByDistrito incs, p.2 ≠ [] ∧ ∀ x ∈ p.2, P x :=
  groupBy_fold_sound P incs [] (by simp) h

theorem addToGroup_ne_nil (g : List (String × List WIncident)) (k : String)
    (inc : WIncident) : addToGroup g k inc ≠ [] := by
  cases g with
  | nil => simp [addToGroup]
  | cons q rest =>
    obtain ⟨k1, l⟩ := q
    rw [addToGroup]
    split <;> simp

theorem groupBy_fold_ne_nil (incs : List WIncident) :
    ∀ g, g ≠ [] ∨ incs ≠ [] →
    incs.foldl (fun g inc => addToGroup g (pyGetD inc.distrito) inc) g ≠ [] := by
  induction incs with
  | nil =>
    intro g h
    rcases h with h | h
    · exact h
    · exact absurd rfl h
  | cons j rest ih =>
    intro g _
    rw [List.foldl_cons]
    exact ih _ (Or.inl (addToGroup_ne_nil g _ j))

theorem groupByDistrito_ne_nil {incs : List WIncident} (h : incs ≠ []) :
    groupByDistrito incs ≠ [] :=
  groupBy_fold_ne_nil incs [] (Or.inr h)

/-- C4.  For every non-empty incident list whose datetimes are
timezone-aware — exactly how `_incident_iter` delivers them via
`_to_local` — and which passes the required-key validation, the
correlation raises `ValueError` from `TZ.localize` while computing the
first covering window: the result is that exception, zero weather fetches
issued, and no row returned. -/
theorem C4_aware_datetimes_raise (qf : WeatherQueryFn) (incidents : List WIncident)
    (tags : List (String × String)) (hne : incidents ≠ [])
    (hval : ∀ inc ∈ incidents, missingKeys inc = [])
    (haware : ∀ inc ∈ incidents, ∀ dt : LDT,
      (inc.dt_inicio_local = some dt ∨ inc.dt_fin_local = some dt) → dt.aware = true) :
    cross_incidents_with_weather qf incidents tags
      = (.error (.typeOrValue "Not naive datetime (tzinfo is already set)"), []) := by
  have hok : require_keys_for_cross incidents = [] :=
    collectMissing_nil_of_valid incidents 0 3 hval
  rw [cross_incidents_with_weather, if_pos hok]
  have hsound := groupByDistrito_sound (fun x => x ∈ incidents) incidents (fun _ h => h)
  obtain ⟨p, ps, hgroups⟩ := List.exists_cons_of_ne_nil (groupByDistrito_ne_nil hne)
  obtain ⟨d, items⟩ := p
  have hitems := hsound (d, items) (hgroups ▸ List.mem_cons_self _ _)
  have hwin := windowOf_aware hitems.1
    (fun x hx => hval x (hitems.2 x hx))
    (fun x hx => haware x (hitems.2 x hx))
  rw [hgroups, processGroups, hwin]

/-- Witness for C4 at a one-incident list with aware datetimes. -/
theorem C4_witness :
    ([egC3inc] : List WIncident) ≠ []
    ∧ (∀ inc ∈ ([egC3inc] : List WIncident), missingKeys inc = [])
    ∧ cross_incidents_with_weather qfEmpty [egC3inc] []
        = (.error (.typeOrValue "Not naive datetime (tzinfo is already set)"), []) := by
  refine ⟨by decide, by decide,
    C4_aware_datetimes_raise qfEmpty [egC3inc] [] (by decide) (by decide) ?_⟩
  intro inc hinc dt hdt
  rw [List.mem_singleton] at hinc
  subst hinc
  rcases hdt with h | h <;> (rw [egC3inc] at h; injection h with h; rw [← h])

/-! ## Weather correlation: C3 -/

theorem addToGroup_preserve {k2 : String} {inc2 : WIncident} {k : String}
    {inc : WIncident} : ∀ {g : List (String × List WIncident)},
    (∃ p ∈ g, p.1 = k ∧ inc ∈ p.2) →
    ∃ p ∈ addToGroup g k2 inc2, p.1 = k ∧ inc ∈ p.2 := by
  intro g
  induction g with
  | nil => intro ⟨p, hp, _⟩; simp at hp
  | cons q rest ih =>
    obtain ⟨k1, l⟩ := q
    intro ⟨p, hp, hk, hm⟩
    rw [addToGroup]
    split
    · rcases List.mem_cons.mp hp with rfl | hrest
      · exact ⟨(k1, l ++ [inc2]), List.mem_cons_self _ _, hk,
          List.mem_append.mpr (Or.inl hm)⟩
      · exact ⟨p, List.mem_cons_of_mem _ hrest, hk, hm⟩
    · rcases List.mem_cons.mp hp with rfl | hrest
      · exact ⟨(k1, l), List.mem_cons_self _ _, hk, hm⟩
      · obtain ⟨p', hp', hk', hm'⟩ := ih ⟨p, hrest, hk, hm⟩
        exact ⟨p', List.mem_cons_of_mem _ hp', hk', hm'⟩

theorem addToGroup_self {k : String} {inc : WIncident} :
    ∀ (g : List (String × List WIncident)),
    ∃ p ∈ addToGroup g k inc, p.1 = k ∧ inc ∈ p.2 := by
  intro g
  induction g with
  | nil =>
    exact ⟨(k, [inc]), List.mem_singleton.mpr rfl, rfl, List.mem_singleton.mpr rfl⟩
  | cons q rest ih =>
    obtain ⟨k1, l⟩ := q
    rw [addToGroup]
    split
    · rename_i hk1
      exact ⟨(k1, l ++ [inc]), List.mem_cons_self _ _, hk1,
        List.mem_append.mpr (Or.inr (List.mem_singleton.mpr rfl))⟩
    · obtain ⟨p', hp', hk', hm'⟩ := ih
      exact ⟨p', List.mem_cons_of_mem _ hp', hk', hm'⟩

theorem groupBy_fold_complete (incs : List WIncident) :
    ∀ (g : List (String × List WIncident)) (k : String) (inc : WIncident),
    ((∃ p ∈ g, p.1 = k ∧ inc ∈ p.2) ∨ (inc ∈ incs ∧ k = pyGetD inc.distrito)) →
    ∃ p ∈ incs.foldl (fun g inc => addToGroup g (pyGetD inc.distrito) inc) g,
      p.1 = k ∧ inc ∈ p.2 := by
  induction incs with
  | nil =>
    intro g k inc h
    rcases h with h | ⟨h, _⟩
    · exact h
    · simp at h
  | cons j rest ih =>
    intro g k inc h
    rw [List.foldl_cons]
    rcases h with h | ⟨hin, hk⟩
    · exact ih _ k inc (Or.inl (addToGroup_preserve h))
    · rcases List.mem_cons.mp hin with rfl | hm
      · exact ih _ k inc (Or.inl (hk ▸ addToGroup_self g))
      · exact ih _ k inc (Or.inr ⟨hm, hk⟩)

theorem groupByDistrito_complete {incs : List WIncident} {inc : WIncident}
    (h : inc ∈ incs) :
    ∃ p ∈ groupByDistrito incs, p.1 = pyGetD inc.distrito ∧ inc ∈ p.2 :=
  groupBy_fold_complete incs [] _ inc (Or.inr ⟨h, rfl⟩)

theorem processGroups_ok (qf : WeatherQueryFn) (tags : List (String × String)) :
    ∀ gs : List (String × List WIncident),
    (∀ p ∈ gs, p.2 ≠ [] ∧ ∀ x ∈ p.2, missingKeys x = []
      ∧ ∀ dt : LDT, (x.dt_inicio_local = some dt ∨ x.dt_fin_local = some dt) →
          dt.aware = false) →
    ∃ rows, (processGroups qf tags gs).1 = .ok rows
      ∧ (processGroups qf tags gs).2.map (fun f => f.1)
          = (gs.map (fun p => p.1)).filterMap (effectiveTag tags)
      ∧ ∀ p ∈ gs, effectiveTag tags p.1 = none → ∀ x ∈ p.2, mkSinTagRow x ∈ rows := by
  intro gs
  induction gs with
  | nil => exact fun _ => ⟨[], rfl, rfl, by simp⟩
  | cons g rest ih =>
    obtain ⟨d, items⟩ := g
    intro hg
    obtain ⟨hne, hx⟩ := hg (d, items) (List.mem_cons_self _ _)
    obtain ⟨w, hw⟩ := windowOf_naive hne (fun x h => (hx x h).1) (fun x h => (hx x h).2)
    obtain ⟨rows2, hr1, hr2, hr3⟩ := ih (fun p hp => hg p (List.mem_cons_of_mem _ hp))
    rw [processGroups, hw]
    cases htag : effectiveTag tags d with
    | none =>
      refine ⟨items.map mkSinTagRow ++ rows2, ?_, ?_, ?_⟩
      · simp only [hr1, Except.map]
      · simp only [List.map_cons, List.filterMap_cons, htag, hr2]
      · intro p hp hptag x hxp
        rcases List.mem_cons.mp hp with rfl | hm
        · exact List.mem_append.mpr (Or.inl (List.mem_map.mpr ⟨x, hxp, rfl⟩))
        · exact List.mem_append.mpr (Or.inr (hr3 p hm hptag x hxp))
    | some tag =>
      refine ⟨items.map (mkWeatherRow (qf tag w.1 w.2)) ++ rows2, ?_, ?_, ?_⟩
      · simp only [hr1, Except.map]
      · simp only [List.map_cons, List.filterMap_cons, htag, hr2]
      · intro p hp hptag x hxp
        rcases List.mem_cons.mp hp with rfl | hm
        · rw [htag] at hptag
          exact absurd hptag (by simp)
        · exact List.mem_append.mpr (Or.inr (hr3 p hm hptag x hxp))

/-- C3 as stated is false: with the timezone-aware datetimes that
`_incident_iter` actually produces, the correlation raises before reaching
the tag test, so an incident of an unmapped district gets no `sin_tag` row
at all (and no fetch is issued for any district, mapped or not). -/
theorem C3_counterexample :
    (cross_incidents_with_weather qfEmpty [egC3inc] []).1
        = .error (.typeOrValue "Not naive datetime (tzinfo is already set)")
    ∧ (cross_incidents_with_weather qfEmpty [egC3inc] []).2 = []
    ∧ effectiveTag [] (pyGetD egC3inc.distrito) = none :=
  ⟨by decide, by decide, by decide⟩

/-- C3 amended.  Provided every incident carries its required keys and
naive datetimes (the correlation raises otherwise, see the aware case),
the run succeeds, the issued fetches are exactly one per distinct district
(in first-appearance order) whose stripped name resolves to a non-empty
tag — so zero fetches for unmapped districts — and every incident of an
unmapped district receives the row with all five weather metrics null and
status `sin_tag`. -/
theorem C3_fetch_per_district (qf : WeatherQueryFn) (incidents : List WIncident)
    (tags : List (String × String))
    (hval : ∀ inc ∈ incidents, missingKeys inc = [])
    (hnaive : ∀ inc ∈ incidents, ∀ dt : LDT,
      (inc.dt_inicio_local = some dt ∨ inc.dt_fin_local = some dt) → dt.aware = false) :
    ∃ rows, (cross_incidents_with_weather qf incidents tags).1 = .ok rows
      ∧ (cross_incidents_with_weather qf incidents tags).2.map (fun f => f.1)
          = ((groupByDistrito incidents).map (fun p => p.1)).filterMap (effectiveTag tags)
      ∧ ∀ inc ∈ incidents, effectiveTag tags (pyGetD inc.distrito) = none →
          mkSinTagRow inc ∈ rows := by
  have hok : require_keys_for_cross incidents = [] :=
    collectMissing_nil_of_valid incidents 0 3 hval
  have hsound := groupByDistrito_sound (fun x => x ∈ incidents) incidents (fun _ h => h)
  obtain ⟨rows, h1, h2, h3⟩ := processGroups_ok qf tags (groupByDistrito incidents)
    (fun p hp => ⟨(hsound p hp).1,
      fun x hx => ⟨hval x ((hsound p hp).2 x hx), hnaive x ((hsound p hp).2 x hx)⟩⟩)
  refine ⟨rows, ?_, ?_, ?_⟩
  · rw [cross_incidents_with_weather, if_pos hok]
    exact h1
  · rw [cross_incidents_with_weather, if_pos hok]
    exact h2
  · intro inc hinc htag
    obtain ⟨p, hp, hpk, hpm⟩ := groupByDistrito_complete hinc
    exact h3 p hp (by rw [hpk]; exact htag) inc hpm

/-- Witness for C3 at the two-district list `egC3good` with only `X`
mapped: one fetch (tag `TX`), and the `Y` incident gets the `sin_tag`
row. -/
theorem C3_witness :
    (∀ inc ∈ egC3good, missingKeys inc = [])
    ∧ (∃ rows, (cross_incidents_with_weather qfEmpty egC3good [("X", "TX")]).1 = .ok rows
        ∧ (cross_incidents_with_weather qfEmpty egC3good [("X", "TX")]).2.map
              (fun f => f.1)
            = ((groupByDistrito egC3good).map (fun p => p.1)).filterMap
                (effectiveTag [("X", "TX")])
        ∧ ∀ inc ∈ egC3good, effectiveTag [("X", "TX")] (pyGetD inc.distrito) = none →
            mkSinTagRow inc ∈ rows)
    ∧ (cross_incidents_with_weather qfEmpty egC3good [("X", "TX")]).2.map (fun f => f.1)
        = ["TX"] := by
  have hnaive : ∀ inc ∈ egC3good, ∀ dt : LDT,
      (inc.dt_inicio_local = some dt ∨ inc.dt_fin_local = some dt) → dt.aware = false := by
    intro inc hinc dt hdt
    rw [egC3good] at hinc
    rcases List.mem_cons.mp hinc with rfl | hm
    · rcases hdt with h | h <;> (injection h with h; rw [← h])
    · rw [List.mem_singleton] at hm
      subst hm
      rcases hdt with h | h <;> (injection h with h; rw [← h])
  exact ⟨by decide,
    C3_fetch_per_district qfEmpty egC3good [("X", "TX")] (by decide) hnaive,
    by decide⟩

end Analizador
